import Mathlib

/-!
Verification development for the ditdetecter repository.

Shallow embedding of the session orchestrator (`GameManager`), the
role-assignment utilities (`game-config.ts`), the scoring pipeline
(`calculateResults` and helpers), the public-state projection
(`getPublicGameState`), the HTTP submit pipeline (`api/submit/route.ts`),
and the session/identity store (`SessionManager`).

Modelling conventions:
- JS `Date` values are epoch-millisecond naturals.
- JS numbers used as counts/ids are `Nat`; values that can go negative are `Int`.
- JS floating-point arithmetic in the scoring code is modelled with exact
  fractions (`Frac`), with `Math.round` as round-half-up (`⌊q + 1/2⌋`).
- `Map` objects are association lists in insertion order (`Map.set` updates
  in place, `Map.delete` removes, iteration follows insertion order),
  matching JS `Map` semantics.
- Sources of nondeterminism (random draws, generated ids, the clock) are
  explicit parameters.
-/

namespace DitDetect

/-- Player roles, from `types` / `game-config.ts`: human | ai_user | troll. -/
inductive PlayerRole where
  | human
  | ai_user
  | troll
deriving DecidableEq, Repr

/-- Game phases, the string union from `GameState['currentPhase']`. -/
inductive Phase where
  | lobby
  | role_reveal
  | round1 | round2 | round3 | round4 | round5 | round6 | round7 | round8
  | voting
  | results
  | finished
deriving DecidableEq, Repr

/-- `Player` record from the source data model (dates as epoch millis). -/
structure Player where
  id : String
  name : String
  role : PlayerRole
  joinedAt : Nat
  isConnected : Bool
  lastSeen : Nat
  isAdmin : Bool
deriving DecidableEq, Repr

/-- `GameState` as built by `GameManager.initializeGameState`. -/
structure GameState where
  currentPhase : Phase
  phaseEndTime : Option Nat
  startedAt : Option Nat
  players : List Player
  adminPlayer : Option Player
  minPlayers : Nat
  maxPlayers : Nat
  roundDuration : Nat
  votingDuration : Nat
deriving DecidableEq, Repr

/-- `Submission` record (content already holds what the code stores). -/
structure Submission where
  id : String
  playerId : String
  playerName : String
  roundNumber : Nat
  content : String
  submittedAt : Nat
deriving DecidableEq, Repr

/-- `Vote` record. -/
structure Vote where
  id : String
  voterId : String
  voterName : String
  targetPlayerId : String
  targetPlayerName : String
  predictedRole : PlayerRole
  submittedAt : Nat
deriving DecidableEq, Repr

/-! ### game-config.ts constants -/

def GAME_CONFIG_MIN_PLAYERS : Nat := 8
def GAME_CONFIG_MAX_PLAYERS : Nat := 16
def GAME_CONFIG_ROUND_DURATION : Nat := 3
def GAME_CONFIG_VOTING_DURATION : Nat := 10
def GAME_CONFIG_ROLE_REVEAL_DURATION : Nat := 2
def GAME_CONFIG_LOBBY_AUTO_START_THRESHOLD : Nat := 12

def POINTS_CORRECT_GUESS : Nat := 100
def POINTS_ROLE_HIDDEN_BONUS : Nat := 50
def POINTS_PARTICIPATION_BONUS : Nat := 25
def POINTS_ACCURACY_MULT : Nat := 2

/-- One entry of `ROUND_CONFIGS` (display-only fields title/description/prompt
omitted; `duration` is `GAME_CONFIG.ROUND_DURATION` for every round). -/
structure RoundConfig where
  roundNumber : Nat
  duration : Nat
  maxLength : Nat
deriving DecidableEq, Repr

/-- The eight `ROUND_CONFIGS` entries with their `maxLength` bounds. -/
def ROUND_CONFIGS : List RoundConfig :=
  [⟨1, GAME_CONFIG_ROUND_DURATION, 150⟩,
   ⟨2, GAME_CONFIG_ROUND_DURATION, 120⟩,
   ⟨3, GAME_CONFIG_ROUND_DURATION, 150⟩,
   ⟨4, GAME_CONFIG_ROUND_DURATION, 140⟩,
   ⟨5, GAME_CONFIG_ROUND_DURATION, 130⟩,
   ⟨6, GAME_CONFIG_ROUND_DURATION, 140⟩,
   ⟨7, GAME_CONFIG_ROUND_DURATION, 140⟩,
   ⟨8, GAME_CONFIG_ROUND_DURATION, 130⟩]

/-! ### Role distribution and assignment (game-config.ts) -/

/-- Role counts by role, modelling `Record<PlayerRole, number>`. -/
structure RoleCounts where
  human : Nat
  ai_user : Nat
  troll : Nat
deriving DecidableEq, Repr

def RoleCounts.inc (rc : RoleCounts) : PlayerRole → RoleCounts
  | .human => { rc with human := rc.human + 1 }
  | .ai_user => { rc with ai_user := rc.ai_user + 1 }
  | .troll => { rc with troll := rc.troll + 1 }

def RoleCounts.get (rc : RoleCounts) : PlayerRole → Nat
  | .human => rc.human
  | .ai_user => rc.ai_user
  | .troll => rc.troll

/-- `roles[i]` for the array `['human', 'ai_user', 'troll']`, with the index
already reduced mod 3 by the callers. -/
def roleOfIndex (i : Nat) : PlayerRole :=
  if i = 0 then .human else if i = 1 then .ai_user else .troll

/-- `getRoleDistribution(playerCount)`: base 3/3/2 at 8 players, one extra
role per extra player in round-robin order human, ai_user, troll.
The out-of-range throws are modelled as `none`. -/
def getRoleDistribution (playerCount : Nat) : Option RoleCounts :=
  if playerCount < GAME_CONFIG_MIN_PLAYERS then none
  else if playerCount > GAME_CONFIG_MAX_PLAYERS then none
  else some ((List.range (playerCount - 8)).foldl
    (fun d i => d.inc (roleOfIndex (i % 3))) ⟨3, 3, 2⟩)

/-- Production `assignRoles(playerIds)` from game-config.ts: for each player
(by position) one fresh random draw `rnd i` is taken and the player gets
`roles[rnd i % roles.length]`.  The draws (crypto.getRandomValues or the
Date/Math.random fallback) are modelled as the explicit stream `rnd`.
Note the source never consults `getRoleDistribution` here: each role is an
independent uniform pick. -/
def assignRoles (rnd : Nat → Nat) (playerIds : List String) : List (String × PlayerRole) :=
  playerIds.enum.map (fun e => (e.2, roleOfIndex (rnd e.1 % 3)))

/-- Role counts of a list of players (for stating the distribution claim). -/
def roleCountsOfPlayers (players : List Player) : RoleCounts :=
  players.foldl (fun rc p => rc.inc p.role) ⟨0, 0, 0⟩

/-! ### GameManager: startGame / forceStart -/

/-- Look up an assignment record `Record<string, PlayerRole>` built by
`assignRoles`; ids are unique along every call path, in which case the
first binding is the record entry. -/
def lookupRole (assignments : List (String × PlayerRole)) (p : Player) : Player :=
  match assignments.lookup p.id with
  | some r => { p with role := r }
  | none => p

/-- `GameManager.startGame` (production path: `TEST_CONFIG.ENABLED` is false,
so roles come from `assignRoles`).  `rnd` is the random stream, `now` the
clock; the armed timer is captured by `phaseEndTime`. -/
def startGame (gs : GameState) (rnd : Nat → Nat) (now : Nat) : Bool × GameState :=
  if gs.currentPhase ≠ .lobby then (false, gs)
  else if gs.players.length < gs.minPlayers then (false, gs)
  else
    let allPlayers := gs.players ++ (match gs.adminPlayer with
      | some a => [a]
      | none => [])
    let assignments := assignRoles rnd (allPlayers.map (fun p => p.id))
    (true,
      { gs with
          players := gs.players.map (lookupRole assignments),
          adminPlayer := gs.adminPlayer.map (lookupRole assignments),
          currentPhase := .role_reveal,
          startedAt := some now,
          phaseEndTime := some (now + GAME_CONFIG_ROLE_REVEAL_DURATION * 60 * 1000) })

/-- `GameManager.isAdmin`: `adminPlayer?.id === playerId`. -/
def isAdminId (gs : GameState) (playerId : String) : Bool :=
  match gs.adminPlayer with
  | some a => a.id == playerId
  | none => false

/-- `GameManager.adminForceStart`: admin check, lobby check, non-empty roster,
then the same role assignment and transition as `startGame` without the
minimum-player check. -/
def adminForceStart (gs : GameState) (adminId : String) (rnd : Nat → Nat) (now : Nat) :
    Bool × GameState :=
  if !isAdminId gs adminId then (false, gs)
  else if gs.currentPhase ≠ .lobby then (false, gs)
  else if gs.players.length = 0 then (false, gs)
  else
    let allPlayers := gs.players ++ (match gs.adminPlayer with
      | some a => [a]
      | none => [])
    let assignments := assignRoles rnd (allPlayers.map (fun p => p.id))
    (true,
      { gs with
          players := gs.players.map (lookupRole assignments),
          adminPlayer := gs.adminPlayer.map (lookupRole assignments),
          currentPhase := .role_reveal,
          startedAt := some now,
          phaseEndTime := some (now + GAME_CONFIG_ROLE_REVEAL_DURATION * 60 * 1000) })

/-! ### JS string helpers

JS `String.prototype.trim` / `toLowerCase`, modelled over the character
list (the ASCII data appearing in this system; written out so that they
reduce in the kernel). -/

def jsTrim (s : String) : String :=
  ⟨((s.data.dropWhile Char.isWhitespace).reverse.dropWhile Char.isWhitespace).reverse⟩

def jsToLower (s : String) : String :=
  ⟨s.data.map Char.toLower⟩

/-! ### GameManager state, submissions and votes -/

/-- The mutable `GameManager` fields relevant to submissions/votes/scoring.
`submissions` models `Map<number, Submission[]>` with JS `Map` get/set
semantics (an absent key and an empty list are indistinguishable to every
consumer, so the map is a total function). -/
structure GMState where
  gameState : GameState
  submissions : Nat → List Submission
  votes : List Vote

/-- `GameManager.getPlayer`: check the admin first, then the roster. -/
def getPlayer (gm : GMState) (playerId : String) : Option Player :=
  match gm.gameState.adminPlayer with
  | some a => if a.id == playerId then some a else gm.gameState.players.find? (fun p => p.id == playerId)
  | none => gm.gameState.players.find? (fun p => p.id == playerId)

/-- The phase named `round${n}`, when that string is a phase at all. -/
def roundPhase (n : Nat) : Option Phase :=
  if n = 1 then some .round1 else if n = 2 then some .round2
  else if n = 3 then some .round3 else if n = 4 then some .round4
  else if n = 5 then some .round5 else if n = 6 then some .round6
  else if n = 7 then some .round7 else if n = 8 then some .round8
  else none

/-- `GameManager.isValidSubmissionPhase`: `currentPhase === round${roundNumber}`. -/
def isValidSubmissionPhase (phase : Phase) (roundNumber : Nat) : Bool :=
  match roundPhase roundNumber with
  | some p => phase == p
  | none => false

/-- `GameManager.addSubmission`.  `subId` models `generateSubmissionId()`,
`now` the clock. -/
def addSubmission (gm : GMState) (playerId : String) (roundNumber : Nat)
    (content : String) (subId : String) (now : Nat) : Bool × GMState :=
  if !isValidSubmissionPhase gm.gameState.currentPhase roundNumber then (false, gm)
  else
    match getPlayer gm playerId with
    | none => (false, gm)
    | some player =>
      if (gm.submissions roundNumber).any (fun s => s.playerId == playerId) then (false, gm)
      else
        let s : Submission :=
          ⟨subId, playerId, player.name, roundNumber, jsTrim content, now⟩
        (true, { gm with submissions := fun m =>
          if m = roundNumber then gm.submissions m ++ [s] else gm.submissions m })

/-- The `/api/submit` POST pipeline around `addSubmission` (the cookie branch
is outside the model: the caller supplies `playerId`): empty-after-trim
check, round-number range check, per-round `maxLength` check on the trimmed
content, player-existence check, then `addSubmission` on the trimmed
content. -/
def submitRoute (gm : GMState) (playerId : String) (roundNumber : Nat)
    (content : String) (subId : String) (now : Nat) : Bool × GMState :=
  if (jsTrim content).length = 0 then (false, gm)
  else if roundNumber < 1 ∨ roundNumber > 8 then (false, gm)
  else
    let afterLength : Bool × GMState :=
      match getPlayer gm playerId with
      | none => (false, gm)
      | some _ => addSubmission gm playerId roundNumber (jsTrim content) subId now
    match ROUND_CONFIGS.find? (fun rc => rc.roundNumber == roundNumber) with
    | some rc => if (jsTrim content).length > rc.maxLength then (false, gm) else afterLength
    | none => afterLength

/-- `GameManager.addVote`.  `voteId` models `generateVoteId()`. -/
def addVote (gm : GMState) (voterId targetPlayerId : String) (predictedRole : PlayerRole)
    (voteId : String) (now : Nat) : Bool × GMState :=
  if gm.gameState.currentPhase ≠ .voting then (false, gm)
  else
    match getPlayer gm voterId, getPlayer gm targetPlayerId with
    | some voter, some target =>
      if voterId == targetPlayerId then (false, gm)
      else
        let kept := gm.votes.filter
          (fun v => !(v.voterId == voterId && v.targetPlayerId == targetPlayerId))
        let v : Vote := ⟨voteId, voterId, voter.name, targetPlayerId, target.name,
          predictedRole, now⟩
        (true, { gm with votes := kept ++ [v] })
    | _, _ => (false, gm)

/-! ### Scoring pipeline (calculateResults and helpers) -/

/-- Exact fraction (numerator over natural denominator, not normalized),
modelling the JS floating-point expressions of the scoring code with exact
rational arithmetic.  A zero denominator plays the role of `NaN` (produced
only by the average over an empty roster, which no claim touches). -/
structure Frac where
  num : Int
  den : Nat
deriving DecidableEq, Repr

def Frac.ofInt (n : Int) : Frac := ⟨n, 1⟩

def Frac.ofNat (n : Nat) : Frac := ⟨(n : Int), 1⟩

def Frac.add (a b : Frac) : Frac := ⟨a.num * b.den + b.num * a.den, a.den * b.den⟩

def Frac.sub (a b : Frac) : Frac := ⟨a.num * b.den - b.num * a.den, a.den * b.den⟩

def Frac.mul (a b : Frac) : Frac := ⟨a.num * b.num, a.den * b.den⟩

def Frac.div (a b : Frac) : Frac :=
  if b.num ≥ 0 then ⟨a.num * b.den, a.den * b.num.toNat⟩
  else ⟨-(a.num * b.den), a.den * (-b.num).toNat⟩

/-- Strict `<` on fractions with positive denominators. -/
def Frac.lt (a b : Frac) : Bool := a.num * b.den < b.num * a.den

/-- Floor of the fraction value. -/
def Frac.floor (a : Frac) : Int := Int.fdiv a.num a.den

/-- Round-half-up (`⌊q + 1/2⌋`), JS `Math.round` on the values the scoring
code produces. -/
def jsRound (q : Frac) : Int := Frac.floor (q.add ⟨1, 2⟩)

/-- Tally a vote list by predicted role (the `roleCounts` accumulation). -/
def countVotesByRole (vs : List Vote) : RoleCounts :=
  vs.foldl (fun rc v => rc.inc v.predictedRole) ⟨0, 0, 0⟩

/-- The `votes` array of a `VotingResults` entry: per-role count and integer
percentage, in `Object.entries` order human, ai_user, troll. -/
def votesBreakdown (rc : RoleCounts) (totalVotes : Nat) : List (PlayerRole × Nat × Int) :=
  [(.human, rc.human,
     if totalVotes > 0 then jsRound (((Frac.ofNat rc.human).div (Frac.ofNat totalVotes)).mul (Frac.ofNat 100)) else 0),
   (.ai_user, rc.ai_user,
     if totalVotes > 0 then jsRound (((Frac.ofNat rc.ai_user).div (Frac.ofNat totalVotes)).mul (Frac.ofNat 100)) else 0),
   (.troll, rc.troll,
     if totalVotes > 0 then jsRound (((Frac.ofNat rc.troll).div (Frac.ofNat totalVotes)).mul (Frac.ofNat 100)) else 0)]

/-- The `mostVotedRole` reduction: fold `Object.entries(roleCounts)` (order
human, ai_user, troll) from `(human, 0)`, replacing on strictly greater
count. -/
def mostVotedRole (rc : RoleCounts) : PlayerRole :=
  (([(PlayerRole.human, rc.human), (PlayerRole.ai_user, rc.ai_user),
     (PlayerRole.troll, rc.troll)]).foldl
    (fun max e => if e.2 > max.2 then e else max) (PlayerRole.human, 0)).1

/-- One element of `calculateVotingResults`. -/
structure VotingResultsEntry where
  playerId : String
  playerName : String
  actualRole : PlayerRole
  votes : List (PlayerRole × Nat × Int)
  mostVotedRole : PlayerRole
  correctGuesses : Nat
deriving DecidableEq, Repr

/-- The per-player body of `calculateVotingResults`. -/
def votingEntryFor (votes : List Vote) (player : Player) : VotingResultsEntry :=
  let votesForPlayer := votes.filter (fun v => v.targetPlayerId == player.id)
  let rc := countVotesByRole votesForPlayer
  { playerId := player.id
    playerName := player.name
    actualRole := player.role
    votes := votesBreakdown rc votesForPlayer.length
    mostVotedRole := mostVotedRole rc
    correctGuesses := rc.get player.role }

/-- `GameManager.calculateVotingResults`: one entry per roster player (the
admin gets none), built from the votes against that player.  Reads only
`gameState.players` and `votes`. -/
def calculateVotingResults (players : List Player) (votes : List Vote) :
    List VotingResultsEntry :=
  players.map (votingEntryFor votes)

/-- One element of `calculatePlayerScores`. -/
structure PlayerScore where
  playerId : String
  playerName : String
  role : PlayerRole
  correctGuesses : Nat
  totalVotes : Nat
  accuracy : Frac
  points : Int
  wasGuessedCorrectly : Bool
  timesGuessedAs : RoleCounts
deriving DecidableEq, Repr

/-- `GameManager.calculatePlayerScores`: one score per roster player.  Note
that a cast vote counts as correct only when its target is found in
`gameState.players` (votes on the admin or on departed players are in the
accuracy denominator but can never match).  The non-null assertion on the
`votingResults.find` is modelled by a `false` default, never reached when
`votingResults` comes from `calculateVotingResults` on the same roster. -/
def playerScoreFor (players : List Player) (votes : List Vote)
    (votingResults : List VotingResultsEntry) (player : Player) : PlayerScore :=
    let playerVotes := votes.filter (fun v => v.voterId == player.id)
    let correctGuesses := (playerVotes.filter (fun v =>
      match players.find? (fun q => q.id == v.targetPlayerId) with
      | some target => target.role == v.predictedRole
      | none => false)).length
    let totalVotes := playerVotes.length
    let accuracy : Frac :=
      if totalVotes > 0 then (Frac.ofNat correctGuesses).div (Frac.ofNat totalVotes)
      else Frac.ofNat 0
    let wasGuessedCorrectly :=
      match votingResults.find? (fun vr => vr.playerId == player.id) with
      | some vr => vr.mostVotedRole == player.role
      | none => false
    let base : Int := correctGuesses * POINTS_CORRECT_GUESS
      + (if !wasGuessedCorrectly then (POINTS_ROLE_HIDDEN_BONUS : Int) else 0)
      + POINTS_PARTICIPATION_BONUS
    { playerId := player.id
      playerName := player.name
      role := player.role
      correctGuesses := correctGuesses
      totalVotes := totalVotes
      accuracy := accuracy
      points := jsRound ((Frac.ofInt base).mul
        ((Frac.ofNat 1).add (accuracy.mul (Frac.ofNat POINTS_ACCURACY_MULT))))
      wasGuessedCorrectly := wasGuessedCorrectly
      timesGuessedAs := countVotesByRole (votes.filter (fun v => v.targetPlayerId == player.id)) }

def calculatePlayerScores (players : List Player) (votes : List Vote)
    (votingResults : List VotingResultsEntry) : List PlayerScore :=
  players.map (playerScoreFor players votes votingResults)

/-- The aggregate block of `calculateGameStats`. -/
structure GameStats where
  totalPlayers : Nat
  gameDuration : Int
  averageAccuracy : Int
  mostAccuratePlayer : String
  bestHiddenRole : String
deriving DecidableEq, Repr

/-- `GameManager.calculateGameStats`.  `gameDuration` reads the wall clock
(`Date.now()`), passed here as `now`; everything else is a function of the
roster and the final scores.  The division for `averageAccuracy` on an
empty roster (JS `NaN`) is the `ℚ` junk value `0`. -/
def calculateGameStats (players : List Player) (startedAt : Option Nat)
    (finalScores : List PlayerScore) (now : Nat) : GameStats :=
  let totalPlayers := players.length
  let gameDuration : Int :=
    match startedAt with
    | some t => jsRound ((Frac.ofInt ((now : Int) - (t : Int))).div (Frac.ofNat (1000 * 60)))
    | none => 0
  let averageAccuracy : Frac :=
    (finalScores.foldl (fun s p => s.add p.accuracy) (Frac.ofNat 0)).div (Frac.ofNat totalPlayers)
  let mostAccuratePlayer : String :=
    match finalScores with
    | [] => ""
    | h :: _ =>
      (finalScores.foldl (fun best p => if best.accuracy.lt p.accuracy then p else best) h).playerName
  let hidden := finalScores.filter (fun p => !p.wasGuessedCorrectly)
  let bestHiddenRole : String :=
    match hidden with
    | h :: _ => (hidden.foldl (fun best p => if best.points < p.points then p else best) h).playerName
    | [] =>
      match finalScores with
      | h :: _ => h.playerName
      | [] => ""
  { totalPlayers := totalPlayers
    gameDuration := gameDuration
    averageAccuracy := jsRound (averageAccuracy.mul (Frac.ofNat 100))
    mostAccuratePlayer := mostAccuratePlayer
    bestHiddenRole := bestHiddenRole }

/-- `GameResults` as assembled by `calculateResults`; `roundSubmissions` is
the (copied) submissions map. -/
structure GameResults where
  finalScores : List PlayerScore
  votingResults : List VotingResultsEntry
  roundSubmissions : Nat → List Submission
  gameStats : GameStats

/-- `GameManager.calculateResults`, with the wall clock explicit. -/
def calculateResults (gm : GMState) (now : Nat) : GameResults :=
  let votingResults := calculateVotingResults gm.gameState.players gm.votes
  let finalScores := calculatePlayerScores gm.gameState.players gm.votes votingResults
  { finalScores := finalScores
    votingResults := votingResults
    roundSubmissions := gm.submissions
    gameStats := calculateGameStats gm.gameState.players gm.gameState.startedAt finalScores now }

/-! ### Public game state (getPublicGameState) -/

/-- A roster entry with the `role` field removed (`Omit<Player, 'role'>`). -/
structure PublicPlayer where
  id : String
  name : String
  joinedAt : Nat
  isConnected : Bool
  lastSeen : Nat
  isAdmin : Bool
deriving DecidableEq, Repr

def Player.dropRole (p : Player) : PublicPlayer :=
  ⟨p.id, p.name, p.joinedAt, p.isConnected, p.lastSeen, p.isAdmin⟩

/-- The shape returned by `getPublicGameState`: every `GameState` field is
spread through unchanged — including `adminPlayer`, a full `Player` with
its `role` — and only the regular `players` lose their `role`. -/
structure PublicGameState where
  currentPhase : Phase
  phaseEndTime : Option Nat
  startedAt : Option Nat
  players : List PublicPlayer
  adminPlayer : Option Player
  minPlayers : Nat
  maxPlayers : Nat
  roundDuration : Nat
  votingDuration : Nat
deriving DecidableEq, Repr

/-- `GameManager.getPublicGameState`, also sent as the initial `game_state`
event on SSE channel open (`api/events/route.ts`). -/
def getPublicGameState (gs : GameState) : PublicGameState :=
  { currentPhase := gs.currentPhase
    phaseEndTime := gs.phaseEndTime
    startedAt := gs.startedAt
    players := gs.players.map Player.dropRole
    adminPlayer := gs.adminPlayer
    minPlayers := gs.minPlayers
    maxPlayers := gs.maxPlayers
    roundDuration := gs.roundDuration
    votingDuration := gs.votingDuration }

/-! ### JS Map model (insertion-ordered association lists) -/

/-- `Map.get`. -/
def mapGet {β : Type} (m : List (String × β)) (k : String) : Option β :=
  (m.find? (fun e => e.1 == k)).map (fun e => e.2)

/-- `Map.set`: updates an existing key in place (keeping its position) or
appends a new binding. -/
def mapSet {β : Type} (m : List (String × β)) (k : String) (v : β) : List (String × β) :=
  if m.any (fun e => e.1 == k) then
    m.map (fun e => if e.1 == k then (k, v) else e)
  else m ++ [(k, v)]

/-- `Map.delete`. -/
def mapDelete {β : Type} (m : List (String × β)) (k : String) : List (String × β) :=
  m.filter (fun e => !(e.1 == k))

/-! ### SessionManager data -/

/-- One `connectionHistory` entry (`reason` is never written on the modelled
paths). -/
structure ConnEntry where
  connected : Nat
  disconnected : Option Nat
deriving DecidableEq, Repr

/-- `SessionData` (the optional `gameState` field is never set by the code,
so it is omitted). -/
structure SessionData where
  playerId : String
  playerName : String
  isAdmin : Bool
  joinedAt : Nat
  lastSeen : Nat
  connectionHistory : List ConnEntry
  totalConnections : Nat
  version : Nat
  checksum : String
deriving DecidableEq, Repr

structure RoomIntegrity where
  checksum : String
  lastVerified : Nat
deriving DecidableEq, Repr

structure RoomBackup where
  gameState : Option GameState
  sessionBackup : List (String × SessionData)
  lastBackup : Nat
deriving DecidableEq, Repr

structure RoomData where
  id : String
  createdAt : Nat
  lastActivity : Nat
  sessions : List (String × SessionData)
  gameState : Option GameState
  adminSession : Option String
  backup : Option RoomBackup
  version : Nat
  integrity : RoomIntegrity
deriving DecidableEq, Repr

/-- `SessionManager` store: the room map and the playerId → roomId map. -/
structure SMState where
  rooms : List (String × RoomData)
  playerSessions : List (String × String)
deriving DecidableEq, Repr

def SESSION_TIMEOUT : Nat := 30 * 60 * 1000
def ROOM_TIMEOUT : Nat := 60 * 60 * 1000
def SESSION_VERSION : Nat := 1

/-! ### Checksums (`generateChecksum`)

`generateChecksum` JSON-stringifies its argument (Maps replaced by their
entry arrays) and hashes the string with the 31-multiplier 32-bit rolling
hash, rendered in base 36.  The serialization below mirrors
`JSON.stringify` on the modelled records: object keys in insertion order,
Maps as entry arrays, `Date`-typed fields already carried as numbers. -/

def jsToInt32 (x : Int) : Int := (x + 2 ^ 31) % 2 ^ 32 - 2 ^ 31

/-- One step of `hash = ((hash << 5) - hash) + char; hash = hash & hash`. -/
def jsHashStep (h : Int) (c : Char) : Int :=
  jsToInt32 (jsToInt32 (h * 32) - h + c.toNat)

def jsHashString (s : String) : Int := s.data.foldl jsHashStep 0

def base36Char (d : Nat) : Char :=
  if d < 10 then Char.ofNat (48 + d) else Char.ofNat (87 + d)

/-- Digits of `n` in base 36, most significant first (fuel-driven so that it
reduces in the kernel). -/
def natToBase36Core : Nat → Nat → List Char → List Char
  | 0, _, acc => acc
  | fuel + 1, n, acc =>
    if n < 36 then base36Char n :: acc
    else natToBase36Core fuel (n / 36) (base36Char (n % 36) :: acc)

def natToBase36 (n : Nat) : String := String.mk (natToBase36Core (n + 1) n [])

/-- JS `Number.prototype.toString(36)` on a 32-bit integer. -/
def intToBase36 (i : Int) : String :=
  if i < 0 then "-" ++ natToBase36 i.natAbs else natToBase36 i.natAbs

def jsonStr (s : String) : String := "\"" ++ s ++ "\""

def encodeBool (b : Bool) : String := if b then "true" else "false"

def encodeOptNat : Option Nat → String
  | none => "null"
  | some n => toString n

def encodeRole : PlayerRole → String
  | .human => jsonStr "human"
  | .ai_user => jsonStr "ai_user"
  | .troll => jsonStr "troll"

def encodePhase : Phase → String
  | .lobby => jsonStr "lobby"
  | .role_reveal => jsonStr "role_reveal"
  | .round1 => jsonStr "round1"
  | .round2 => jsonStr "round2"
  | .round3 => jsonStr "round3"
  | .round4 => jsonStr "round4"
  | .round5 => jsonStr "round5"
  | .round6 => jsonStr "round6"
  | .round7 => jsonStr "round7"
  | .round8 => jsonStr "round8"
  | .voting => jsonStr "voting"
  | .results => jsonStr "results"
  | .finished => jsonStr "finished"

def encodePlayer (p : Player) : String :=
  "\x7b\"id\":" ++ jsonStr p.id
    ++ ",\"name\":" ++ jsonStr p.name
    ++ ",\"role\":" ++ encodeRole p.role
    ++ ",\"joinedAt\":" ++ toString p.joinedAt
    ++ ",\"isConnected\":" ++ encodeBool p.isConnected
    ++ ",\"lastSeen\":" ++ toString p.lastSeen
    ++ ",\"isAdmin\":" ++ encodeBool p.isAdmin
    ++ "\x7d"

def encodeOptPlayer : Option Player → String
  | none => "null"
  | some p => encodePlayer p

def encodeGameState (gs : GameState) : String :=
  "\x7b\"currentPhase\":" ++ encodePhase gs.currentPhase
    ++ ",\"phaseEndTime\":" ++ encodeOptNat gs.phaseEndTime
    ++ ",\"startedAt\":" ++ encodeOptNat gs.startedAt
    ++ ",\"players\":[" ++ String.intercalate "," (gs.players.map encodePlayer) ++ "]"
    ++ ",\"adminPlayer\":" ++ encodeOptPlayer gs.adminPlayer
    ++ ",\"minPlayers\":" ++ toString gs.minPlayers
    ++ ",\"maxPlayers\":" ++ toString gs.maxPlayers
    ++ ",\"roundDuration\":" ++ toString gs.roundDuration
    ++ ",\"votingDuration\":" ++ toString gs.votingDuration
    ++ "\x7d"

def encodeOptGameState : Option GameState → String
  | none => "null"
  | some gs => encodeGameState gs

def encodeConnEntry (e : ConnEntry) : String :=
  match e.disconnected with
  | none => "\x7b\"connected\":" ++ toString e.connected ++ "\x7d"
  | some d =>
    "\x7b\"connected\":" ++ toString e.connected ++ ",\"disconnected\":" ++ toString d ++ "\x7d"

def encodeSessionData (s : SessionData) : String :=
  "\x7b\"playerId\":" ++ jsonStr s.playerId
    ++ ",\"playerName\":" ++ jsonStr s.playerName
    ++ ",\"isAdmin\":" ++ encodeBool s.isAdmin
    ++ ",\"joinedAt\":" ++ toString s.joinedAt
    ++ ",\"lastSeen\":" ++ toString s.lastSeen
    ++ ",\"connectionHistory\":[" ++ String.intercalate "," (s.connectionHistory.map encodeConnEntry) ++ "]"
    ++ ",\"totalConnections\":" ++ toString s.totalConnections
    ++ ",\"version\":" ++ toString s.version
    ++ ",\"checksum\":" ++ jsonStr s.checksum
    ++ "\x7d"

/-- The `Map` replacer output for the sessions map: an array of `[key, value]`
entry pairs in insertion order. -/
def encodeSessions (m : List (String × SessionData)) : String :=
  "[" ++ String.intercalate ","
    (m.map (fun e => "[" ++ jsonStr e.1 ++ "," ++ encodeSessionData e.2 ++ "]")) ++ "]"

/-- `generateChecksum({sessions, gameState})` for room integrity. -/
def roomChecksum (sessions : List (String × SessionData)) (gameState : Option GameState) : String :=
  intToBase36 (jsHashString
    ("\x7b\"sessions\":" ++ encodeSessions sessions
      ++ ",\"gameState\":" ++ encodeOptGameState gameState ++ "\x7d"))

/-- `generateChecksum(session)` for a session record (the object is hashed
with its previous `checksum` field still inside). -/
def sessionChecksum (s : SessionData) : String :=
  intToBase36 (jsHashString (encodeSessionData s))

/-! ### SessionManager operations -/

/-- `verifyIntegrity(room)`. -/
def verifyIntegrity (room : RoomData) : Bool :=
  roomChecksum room.sessions room.gameState == room.integrity.checksum

/-- `updateRoomIntegrity(room)`. -/
def updateRoomIntegrity (room : RoomData) (now : Nat) : RoomData :=
  { room with integrity := ⟨roomChecksum room.sessions room.gameState, now⟩ }

/-- `createBackup(room)`. -/
def createBackup (room : RoomData) (now : Nat) : RoomData :=
  { room with backup := some ⟨room.gameState, room.sessions, now⟩ }

/-- `restoreFromBackup(room)`: fails only when there is no backup (the copy
in the `try` block cannot throw). -/
def restoreFromBackup (room : RoomData) (now : Nat) : Bool × RoomData :=
  match room.backup with
  | none => (false, room)
  | some b =>
    (true, updateRoomIntegrity { room with sessions := b.sessionBackup, gameState := b.gameState } now)

/-- A fresh room as built by `getOrCreateRoom` (initial checksum computed by
the `updateRoomIntegrity` call that follows the literal). -/
def freshRoom (roomId : String) (now : Nat) : RoomData :=
  updateRoomIntegrity
    { id := roomId, createdAt := now, lastActivity := now, sessions := [],
      gameState := none, adminSession := none, backup := none,
      version := SESSION_VERSION, integrity := ⟨"", now⟩ } now

/-- The room fetched (or created) by `getOrCreateRoom`, with its
`lastActivity` bump. -/
def roomAtAccess (sm : SMState) (roomId : String) (now : Nat) : RoomData :=
  match mapGet sm.rooms roomId with
  | some r => { r with lastActivity := now }
  | none => { freshRoom roomId now with lastActivity := now }

/-- The integrity check performed on every `getOrCreateRoom` access: keep the
room if the recomputed checksum matches, otherwise restore from backup,
otherwise hard-reset to empty. -/
def verifyOrRestore (room : RoomData) (now : Nat) : RoomData :=
  if verifyIntegrity room then room
  else
    match restoreFromBackup room now with
    | (true, r) => r
    | (false, r) => updateRoomIntegrity { r with sessions := [], gameState := none } now

/-- `SessionManager.getOrCreateRoom`: lazy creation, lastActivity bump, then
the integrity check with restore-from-backup and hard reset on failure. -/
def getOrCreateRoom (sm : SMState) (roomId : String) (now : Nat) : RoomData × SMState :=
  (verifyOrRestore (roomAtAccess sm roomId now) now,
   { sm with rooms := mapSet sm.rooms roomId (verifyOrRestore (roomAtAccess sm roomId now) now) })

/-- `SessionManager.createOrRestoreSession`. -/
def createOrRestoreSession (sm : SMState) (playerId playerName : String) (isAdmin : Bool)
    (roomId : String) (now : Nat) : SessionData × SMState :=
  let rs := getOrCreateRoom sm roomId now
  let room := rs.1
  let sm1 := rs.2
  match mapGet room.sessions playerId with
  | some s =>
    let history :=
      match s.connectionHistory.getLast? with
      | none => s.connectionHistory ++ [⟨now, none⟩]
      | some last =>
        if last.disconnected.isSome then s.connectionHistory ++ [⟨now, none⟩]
        else s.connectionHistory
    let s1 := { s with lastSeen := now, playerName := playerName, isAdmin := isAdmin,
                       totalConnections := s.totalConnections + 1,
                       connectionHistory := history }
    let s2 := { s1 with checksum := sessionChecksum s1 }
    let room1 := updateRoomIntegrity
      { room with sessions := mapSet room.sessions playerId s2, lastActivity := now } now
    (s2, { sm1 with rooms := mapSet sm1.rooms roomId room1 })
  | none =>
    let s0 : SessionData :=
      { playerId := playerId, playerName := playerName, isAdmin := isAdmin,
        joinedAt := now, lastSeen := now, connectionHistory := [⟨now, none⟩],
        totalConnections := 1, version := SESSION_VERSION, checksum := "" }
    let s1 := { s0 with checksum := sessionChecksum s0 }
    let room1 := updateRoomIntegrity
      { room with sessions := mapSet room.sessions playerId s1,
                  adminSession := if isAdmin then some playerId else room.adminSession,
                  lastActivity := now } now
    (s1, { rooms := mapSet sm1.rooms roomId room1,
           playerSessions := mapSet sm1.playerSessions playerId roomId })

/-- `SessionManager.getSession`. -/
def getSession (sm : SMState) (playerId : String) : Option SessionData :=
  match mapGet sm.playerSessions playerId with
  | none => none
  | some roomId =>
    match mapGet sm.rooms roomId with
    | none => none
    | some room => mapGet room.sessions playerId

/-- The room update performed by `updateSessionActivity`. -/
def touchedRoom (room : RoomData) (playerId : String) (s : SessionData) (now : Nat) : RoomData :=
  { room with
    sessions := mapSet room.sessions playerId { s with lastSeen := now },
    lastActivity := now }

/-- `SessionManager.updateSessionActivity`. -/
def updateSessionActivity (sm : SMState) (playerId : String) (now : Nat) : SMState :=
  match mapGet sm.playerSessions playerId with
  | none => sm
  | some roomId =>
    match mapGet sm.rooms roomId with
    | none => sm
    | some room =>
      match mapGet room.sessions playerId with
      | none => sm
      | some s =>
        { sm with rooms := mapSet sm.rooms roomId (touchedRoom room playerId s now) }

/-- `SessionManager.saveGameState`. -/
def saveGameState (sm : SMState) (gs : GameState) (roomId : String) (now : Nat) : SMState :=
  match mapGet sm.rooms roomId with
  | none => sm
  | some room =>
    { sm with rooms :=
        mapSet sm.rooms roomId { room with gameState := some gs, lastActivity := now } }

/-- `SessionManager.getGameState`. -/
def smGetGameState (sm : SMState) (roomId : String) : Option GameState :=
  match mapGet sm.rooms roomId with
  | none => none
  | some room => room.gameState

/-- The room update performed by `removeSession`. -/
def removeSessionRoom (room : RoomData) (playerId : String) (now : Nat) : RoomData :=
  { room with
    sessions := mapDelete room.sessions playerId,
    adminSession := if room.adminSession == some playerId then none else room.adminSession,
    lastActivity := now }

/-- `SessionManager.removeSession`. -/
def removeSession (sm : SMState) (playerId : String) (now : Nat) : SMState :=
  match mapGet sm.playerSessions playerId with
  | none => sm
  | some roomId =>
    match mapGet sm.rooms roomId with
    | none => sm
    | some room =>
      { rooms := mapSet sm.rooms roomId (removeSessionRoom room playerId now),
        playerSessions := mapDelete sm.playerSessions playerId }

/-- `SessionManager.canRejoinGame`: session exists, its room has a saved
game state, the session is recent, and the game is not finished.  JS
`now - lastSeen` on a clock that moved backwards is negative and passes
the `< SESSION_TIMEOUT` test, exactly as truncated `Nat` subtraction does. -/
def canRejoinGame (sm : SMState) (playerId : String) (now : Nat) : Bool :=
  match getSession sm playerId with
  | none => false
  | some session =>
    match mapGet sm.playerSessions playerId with
    | none => false
    | some roomId =>
      match smGetGameState sm roomId with
      | none => false
      | some gs =>
        decide (now - session.lastSeen < SESSION_TIMEOUT) && !(gs.currentPhase == .finished)

/-! ### GameManager + SessionManager combined (join / leave) -/

/-- The orchestrator together with its session store (`roomId` is the
constant `'main'` in `GameManager`). -/
structure Sys where
  gm : GMState
  sm : SMState

def MAIN_ROOM : String := "main"

/-- The `Player` rebuilt on an idempotent rejoin (role reset to the
placeholder `'human'`, `lastSeen` refreshed). -/
def rejoinedPlayer (session : SessionData) (pid : String) (now : Nat) : Player :=
  ⟨pid, session.playerName, .human, session.joinedAt, true, now, session.isAdmin⟩

/-- The game-state change of the rejoin path: restore the admin slot, or
re-append the player unless an entry with that id is already present. -/
def rejoinGameState (gs : GameState) (session : SessionData) (pid : String) (now : Nat) :
    GameState :=
  if session.isAdmin then { gs with adminPlayer := some (rejoinedPlayer session pid now) }
  else if gs.players.any (fun p => p.id == pid) then gs
  else { gs with players := gs.players ++ [rejoinedPlayer session pid now] }

/-- The full result of the rejoin path: refreshed session activity, updated
game state, and the save into the `'main'` room. -/
def rejoinResult (sys : Sys) (pid : String) (session : SessionData) (now : Nat) : Player × Sys :=
  (rejoinedPlayer session pid now,
   ⟨{ sys.gm with gameState := rejoinGameState sys.gm.gameState session pid now },
    saveGameState (updateSessionActivity sys.sm pid now)
      (rejoinGameState sys.gm.gameState session pid now) MAIN_ROOM now⟩)

/-- The restore-prior-identity attempt at the top of `addPlayer`. -/
def tryRejoin (sys : Sys) (name : String) (existingPlayerId : Option String) (now : Nat) :
    Option (Player × Sys) :=
  match existingPlayerId with
  | none => none
  | some pid =>
    if canRejoinGame sys.sm pid now then
      match getSession sys.sm pid with
      | none => none
      | some session =>
        if jsToLower session.playerName == jsToLower name then
          some (rejoinResult sys pid session now)
        else none
    else none

/-- `GameManager.addPlayer(name, isAdmin, existingPlayerId?)`.

`now` is the clock and `freshId` the value `generatePlayerId()` would
produce when called.  The emitted events and the auto-start timer
(`checkAutoStart` only schedules a delayed `startGame`) are outside the
state model. -/
def addPlayer (sys : Sys) (name : String) (isAdmin : Bool) (existingPlayerId : Option String)
    (now : Nat) (freshId : String) : Option Player × Sys :=
  if sys.gm.gameState.currentPhase ≠ .lobby then (none, sys)
  else
    match tryRejoin sys name existingPlayerId now with
    | some r => (some r.1, r.2)
    | none =>
      let playerId := existingPlayerId.getD freshId
      let gs := sys.gm.gameState
      if isAdmin then
        if gs.adminPlayer.isSome then (none, sys)
        else if gs.players.any (fun p => jsToLower p.name == jsToLower name && p.id != playerId) then
          (none, sys)
        else
          let adminPlayer : Player := ⟨playerId, jsTrim name, .human, now, true, now, true⟩
          let sm1 := (createOrRestoreSession sys.sm playerId (jsTrim name) true MAIN_ROOM now).2
          let gs1 := { gs with adminPlayer := some adminPlayer }
          let sm2 := saveGameState sm1 gs1 MAIN_ROOM now
          (some adminPlayer, ⟨{ sys.gm with gameState := gs1 }, sm2⟩)
      else
        if gs.players.length ≥ gs.maxPlayers then (none, sys)
        else
          let takenByOthers :=
            gs.players.any (fun p => jsToLower p.name == jsToLower name && p.id != playerId)
          let takenByAdmin :=
            match gs.adminPlayer with
            | some a => jsToLower a.name == jsToLower name && a.id != playerId
            | none => false
          if takenByOthers || takenByAdmin then (none, sys)
          else
            let player : Player := ⟨playerId, jsTrim name, .human, now, true, now, false⟩
            let sm1 := (createOrRestoreSession sys.sm playerId (jsTrim name) false MAIN_ROOM now).2
            let gs1 := { gs with players := gs.players ++ [player] }
            let sm2 := saveGameState sm1 gs1 MAIN_ROOM now
            (some player, ⟨{ sys.gm with gameState := gs1 }, sm2⟩)

/-- `checkGameContinuation`: outside the lobby, too few connected players
force the `finished` phase and clear the timer (without re-saving). -/
def checkGameContinuation (gs : GameState) : GameState :=
  if gs.currentPhase ≠ .lobby ∧
      (gs.players.filter (fun p => p.isConnected)).length < gs.minPlayers then
    { gs with currentPhase := .finished, phaseEndTime := none }
  else gs

/-- `GameManager.removePlayer`: unconditionally removes the session record
first, then clears the admin slot or splices the roster entry; an unknown
id returns `false` (with the session already removed). -/
def removePlayer (sys : Sys) (playerId : String) (now : Nat) : Bool × Sys :=
  match sys.gm.gameState.adminPlayer with
  | some a =>
    if a.id == playerId then
      let gs1 := { sys.gm.gameState with adminPlayer := none }
      (true, ⟨{ sys.gm with gameState := gs1 },
              saveGameState (removeSession sys.sm playerId now) gs1 MAIN_ROOM now⟩)
    else
      match sys.gm.gameState.players.findIdx? (fun p => p.id == playerId) with
      | none => (false, ⟨sys.gm, removeSession sys.sm playerId now⟩)
      | some i =>
        let gs1 := { sys.gm.gameState with players := sys.gm.gameState.players.eraseIdx i }
        (true, ⟨{ sys.gm with gameState := checkGameContinuation gs1 },
                saveGameState (removeSession sys.sm playerId now) gs1 MAIN_ROOM now⟩)
  | none =>
    match sys.gm.gameState.players.findIdx? (fun p => p.id == playerId) with
    | none => (false, ⟨sys.gm, removeSession sys.sm playerId now⟩)
    | some i =>
      let gs1 := { sys.gm.gameState with players := sys.gm.gameState.players.eraseIdx i }
      (true, ⟨{ sys.gm with gameState := checkGameContinuation gs1 },
              saveGameState (removeSession sys.sm playerId now) gs1 MAIN_ROOM now⟩)

/-! ### Concrete fixtures -/

def mkPlayer (id name : String) : Player :=
  ⟨id, name, .human, 0, true, 0, false⟩

def baseGameState : GameState :=
  { currentPhase := .lobby, phaseEndTime := none, startedAt := none,
    players := [], adminPlayer := none,
    minPlayers := GAME_CONFIG_MIN_PLAYERS, maxPlayers := GAME_CONFIG_MAX_PLAYERS,
    roundDuration := GAME_CONFIG_ROUND_DURATION, votingDuration := GAME_CONFIG_VOTING_DURATION }

/-- A full lobby of eight uniquely named players. -/
def lobby8 : GameState :=
  { baseGameState with players :=
      [mkPlayer "p1" "n1", mkPlayer "p2" "n2", mkPlayer "p3" "n3", mkPlayer "p4" "n4",
       mkPlayer "p5" "n5", mkPlayer "p6" "n6", mkPlayer "p7" "n7", mkPlayer "p8" "n8"] }

/-! ### C1 -/

/-- C1: the claim says that after a successful `start()` every outcome of the
randomness yields role counts equal to the configured distribution
(3 human / 3 ai_user / 2 troll at 8 participants).  The code refutes it:
production `assignRoles` draws an independent uniform role per player and
never consults `getRoleDistribution`, so the random outcome in which every
draw is `0` starts the game with all eight players `human` — counts
`(8,0,0)` instead of the configured `(3,3,2)`. -/
theorem startGame_role_distribution_violated :
    (startGame lobby8 (fun _ => 0) 0).1 = true ∧
    getRoleDistribution 8 = some ⟨3, 3, 2⟩ ∧
    roleCountsOfPlayers (startGame lobby8 (fun _ => 0) 0).2.players = ⟨8, 0, 0⟩ ∧
    roleCountsOfPlayers (startGame lobby8 (fun _ => 0) 0).2.players ≠ ⟨3, 3, 2⟩ := by
  decide

/-! ### C5 -/

def adminBob : Player := ⟨"adm", "Bob", .troll, 0, true, 0, true⟩

def C5state : GameState :=
  { baseGameState with players := [mkPlayer "p1" "n1"], adminPlayer := some adminBob }

/-- C5 counterexample: the claim says no roster entry of the public game
state, including the admin's, exposes its role field.  But
`getPublicGameState` spreads `adminPlayer` through unchanged: the admin
entry carries its private role, and changing only the admin's private role
changes the public output. -/
theorem publicGameState_exposes_admin_role :
    ((getPublicGameState C5state).adminPlayer.map Player.role) = some .troll ∧
    getPublicGameState C5state ≠
      getPublicGameState { C5state with adminPlayer := some ⟨"adm", "Bob", .human, 0, true, 0, true⟩ } := by
  decide

/-- C5 amended: the public game state (also the initial `game_state` push)
carries the current phase; every regular roster entry has its role
stripped — the projection is invariant under any reassignment of regular
players' roles — but the `adminPlayer` entry is passed through whole,
private role included. -/
theorem publicGameState_strips_regular_roles_only (gs : GameState) (f : Player → PlayerRole) :
    (getPublicGameState gs).currentPhase = gs.currentPhase ∧
    (getPublicGameState { gs with
        players := gs.players.map (fun p => { p with role := f p }) }).players
      = (getPublicGameState gs).players ∧
    (getPublicGameState gs).adminPlayer = gs.adminPlayer := by
  refine ⟨rfl, ?_, rfl⟩
  simp only [getPublicGameState, List.map_map]
  rfl

/-! ### C4 definitions: the claimed and the amended scoring formula -/

/-- The most-voted role described by the spec: the role with the highest
tally of votes against the player, ties broken in enumeration order
human, ai_user, troll. -/
def claimMostVotedOfCounts (rc : RoleCounts) : PlayerRole :=
  if rc.ai_user ≤ rc.human ∧ rc.troll ≤ rc.human then .human
  else if rc.troll ≤ rc.ai_user then .ai_user
  else .troll

def claimMostVotedRole (votes : List Vote) (pid : String) : PlayerRole :=
  claimMostVotedOfCounts (countVotesByRole (votes.filter (fun v => v.targetPlayerId == pid)))

/-- Modelled from the claim: the true role of a participant id, looked up
over the whole participant set (regular roster and the admin). -/
def claimRoleOf (players : List Player) (admin : Option Player) (pid : String) :
    Option PlayerRole :=
  ((players ++ (match admin with
    | some a => [a]
    | none => [])).find? (fun q => q.id == pid)).map (fun q => q.role)

/-- Modelled from the claim: votes cast by `pid` whose predicted role
matches the target's true role (target taken among all participants). -/
def claimCorrectGuesses (players : List Player) (admin : Option Player)
    (votes : List Vote) (pid : String) : Nat :=
  ((votes.filter (fun v => v.voterId == pid)).filter
    (fun v => claimRoleOf players admin v.targetPlayerId == some v.predictedRole)).length

/-- The points formula exactly as the claim states it. -/
def claimPoints (players : List Player) (admin : Option Player)
    (votes : List Vote) (p : Player) : Int :=
  let cg := claimCorrectGuesses players admin votes p.id
  let cast := (votes.filter (fun v => v.voterId == p.id)).length
  let acc : Frac := if cast > 0 then (Frac.ofNat cg).div (Frac.ofNat cast) else Frac.ofNat 0
  let base : Int := cg * POINTS_CORRECT_GUESS
    + (if claimMostVotedRole votes p.id != p.role then (POINTS_ROLE_HIDDEN_BONUS : Int) else 0)
    + POINTS_PARTICIPATION_BONUS
  jsRound ((Frac.ofInt base).mul
    ((Frac.ofNat 1).add (acc.mul (Frac.ofNat POINTS_ACCURACY_MULT))))

/-- Correct guesses as the code actually counts them: the target must be a
current *regular roster* player with a matching role; matching votes on
the admin (or on departed players) never count. -/
def rosterCorrectGuesses (players : List Player) (votes : List Vote) (pid : String) : Nat :=
  ((votes.filter (fun v => v.voterId == pid)).filter (fun v =>
    match players.find? (fun q => q.id == v.targetPlayerId) with
    | some target => target.role == v.predictedRole
    | none => false)).length

/-- The amended points formula: as claimed, except that
`correctGuessesByThisPlayer` counts only votes whose target is a regular
roster player with a matching role (the accuracy denominator still counts
every cast vote). -/
def amendedPoints (players : List Player) (votes : List Vote) (p : Player) : Int :=
  let cg := rosterCorrectGuesses players votes p.id
  let cast := (votes.filter (fun v => v.voterId == p.id)).length
  let acc : Frac := if cast > 0 then (Frac.ofNat cg).div (Frac.ofNat cast) else Frac.ofNat 0
  let base : Int := cg * POINTS_CORRECT_GUESS
    + (if claimMostVotedRole votes p.id != p.role then (POINTS_ROLE_HIDDEN_BONUS : Int) else 0)
    + POINTS_PARTICIPATION_BONUS
  jsRound ((Frac.ofInt base).mul
    ((Frac.ofNat 1).add (acc.mul (Frac.ofNat POINTS_ACCURACY_MULT))))

/-! ### C4 helper lemmas -/

/-- With duplicate-free ids, searching a roster for a member's id finds that
member. -/
theorem find?_by_id {P : List Player} (hnd : (P.map Player.id).Nodup) {p : Player}
    (hmem : p ∈ P) : P.find? (fun q => q.id == p.id) = some p := by
  induction P with
  | nil => cases hmem
  | cons q t ih =>
    rw [List.map_cons, List.nodup_cons] at hnd
    rcases List.mem_cons.mp hmem with rfl | hm
    · simp [List.find?]
    · have hqi : (q.id == p.id) = false := by
        refine beq_eq_false_iff_ne.mpr ?_
        intro he
        exact hnd.1 (he ▸ List.mem_map.mpr ⟨p, hm, rfl⟩)
      simp only [List.find?, hqi]
      exact ih hnd.2 hm

/-- The `votingResults.find` in `calculatePlayerScores` retrieves exactly the
member's own voting entry. -/
theorem find?_votingEntry (P : List Player) (V : List Vote) {p : Player}
    (hmem : p ∈ P) (hnd : (P.map Player.id).Nodup) :
    (calculateVotingResults P V).find? (fun vr => vr.playerId == p.id)
      = some (votingEntryFor V p) := by
  unfold calculateVotingResults
  rw [List.find?_map]
  have hcomp : ((fun vr => vr.playerId == p.id) ∘ votingEntryFor V)
      = fun q => q.id == p.id := rfl
  rw [hcomp, find?_by_id hnd hmem]
  rfl

/-- The `reduce` computing `mostVotedRole` agrees with the spec description:
first maximal count in enumeration order human, ai_user, troll. -/
theorem mostVotedRole_eq_claim (rc : RoleCounts) :
    mostVotedRole rc = claimMostVotedOfCounts rc := by
  rcases rc with ⟨h, a, t⟩
  simp only [mostVotedRole, claimMostVotedOfCounts, List.foldl]
  split_ifs <;> simp_all <;> omega

/-! ### C3 -/

def C3gameState : GameState :=
  { baseGameState with
      currentPhase := .results
      startedAt := some 0
      players := [mkPlayer "p1" "n1"] }

def C3gm : GMState :=
  { gameState := C3gameState, submissions := fun _ => [], votes := [] }

/-- C3 counterexample: the claim says `computeResults` is a pure function of
the Submission/Vote/PlayerRecord sets, *regardless of when each call
occurs*.  The code reads the wall clock for `gameStats.gameDuration`
(`Date.now() - startedAt`), so two calls over identical sets, two minutes
apart, disagree. -/
theorem calculateResults_depends_on_clock :
    calculateResults C3gm 0 ≠ calculateResults C3gm 120000 :=
  fun h => absurd (congrArg (fun r => r.gameStats.gameDuration) h) (by decide)

/-- C3 amended: `calculateResults` is a pure function of the roster, the
votes, the submissions, `startedAt` *and the call time*: over unchanged
sets and equal call times the outputs are identical, and every component
except `gameStats.gameDuration` is also independent of the call time. -/
theorem calculateResults_pure (gm1 gm2 : GMState) (now : Nat)
    (hp : gm1.gameState.players = gm2.gameState.players)
    (hv : gm1.votes = gm2.votes)
    (hs : gm1.submissions = gm2.submissions)
    (ht : gm1.gameState.startedAt = gm2.gameState.startedAt) :
    calculateResults gm1 now = calculateResults gm2 now ∧
    ∀ n1 n2 : Nat,
      (calculateResults gm1 n1).finalScores = (calculateResults gm1 n2).finalScores ∧
      (calculateResults gm1 n1).votingResults = (calculateResults gm1 n2).votingResults ∧
      (calculateResults gm1 n1).roundSubmissions = (calculateResults gm1 n2).roundSubmissions ∧
      (calculateResults gm1 n1).gameStats.totalPlayers
        = (calculateResults gm1 n2).gameStats.totalPlayers ∧
      (calculateResults gm1 n1).gameStats.averageAccuracy
        = (calculateResults gm1 n2).gameStats.averageAccuracy ∧
      (calculateResults gm1 n1).gameStats.mostAccuratePlayer
        = (calculateResults gm1 n2).gameStats.mostAccuratePlayer ∧
      (calculateResults gm1 n1).gameStats.bestHiddenRole
        = (calculateResults gm1 n2).gameStats.bestHiddenRole := by
  constructor
  · simp only [calculateResults, hp, hv, hs, ht]
  · intro n1 n2
    exact ⟨rfl, rfl, rfl, rfl, rfl, rfl, rfl⟩

/-- C3 witness: the pure part applied at a concrete state — final scores at
two different clock readings coincide. -/
theorem calculateResults_pure_witness :
    (calculateResults C3gm 0).finalScores = (calculateResults C3gm 120000).finalScores :=
  ((calculateResults_pure C3gm C3gm 0 rfl rfl rfl rfl).2 0 120000).1

/-! ### C4 -/

def C4players : List Player := [⟨"A", "Alice", .ai_user, 0, true, 0, false⟩]

def C4admin : Player := ⟨"B", "Bobby", .troll, 0, true, 0, true⟩

def C4votes : List Vote := [⟨"v1", "A", "Alice", "B", "Bobby", .troll, 0⟩]

def C4gameState : GameState :=
  { baseGameState with
      currentPhase := .results
      players := C4players
      adminPlayer := some C4admin }

def C4gm : GMState :=
  { gameState := C4gameState, submissions := fun _ => [], votes := C4votes }

/-- C4 counterexample: Alice's only vote targets the admin Bobby and predicts
his true role (`troll`).  The claim's formula counts it as a correct guess
(accuracy 1, points `round((100+50+25)·3) = 525`), but the code looks
targets up only in `gameState.players`, so the vote never matches: the
code yields `round((0+50+25)·1) = 75`. -/
theorem points_formula_counterexample :
    (calculateResults C4gm 0).finalScores.map PlayerScore.points = [75] ∧
    C4players.map (claimPoints C4players (some C4admin) C4votes) = [525] ∧
    (calculateResults C4gm 0).finalScores.map PlayerScore.points
      ≠ C4players.map (claimPoints C4players (some C4admin) C4votes) := by
  decide

/-- C4 amended: `computeResults` assigns each roster player points equal to
`round((correct × 100 + (50 if the true role differs from the most-voted
role, tie-broken human/ai_user/troll) + 25) × (1 + accuracy × 2))`, where
`correct` counts only cast votes whose target is a regular roster player
with a matching role, and accuracy is `correct` over all cast votes. -/
theorem calculateResults_points_formula (gm : GMState) (now : Nat)
    (hnd : (gm.gameState.players.map Player.id).Nodup) :
    (calculateResults gm now).finalScores.map PlayerScore.points
      = gm.gameState.players.map (amendedPoints gm.gameState.players gm.votes) := by
  show (calculatePlayerScores gm.gameState.players gm.votes
      (calculateVotingResults gm.gameState.players gm.votes)).map PlayerScore.points = _
  unfold calculatePlayerScores
  rw [List.map_map]
  refine List.map_congr_left ?_
  intro p hp
  show (playerScoreFor gm.gameState.players gm.votes
      (calculateVotingResults gm.gameState.players gm.votes) p).points = _
  unfold playerScoreFor
  rw [find?_votingEntry gm.gameState.players gm.votes hp hnd]
  have hmv : (votingEntryFor gm.votes p).mostVotedRole
      = claimMostVotedOfCounts
          (countVotesByRole (gm.votes.filter (fun v => v.targetPlayerId == p.id))) := by
    show mostVotedRole _ = _
    exact mostVotedRole_eq_claim _
  simp only [amendedPoints, claimMostVotedRole, rosterCorrectGuesses, hmv, bne]

/-- C4 witness: the amended formula evaluated on the concrete state above. -/
theorem calculateResults_points_formula_witness :
    (calculateResults C4gm 0).finalScores.map PlayerScore.points
      = C4gm.gameState.players.map (amendedPoints C4gm.gameState.players C4gm.votes) :=
  calculateResults_points_formula C4gm 0 (by decide)

/-! ### C2 -/

/-- The configured length bound of a round (0 when the round number has no
config entry; rounds 1–8 all have one). -/
def roundMaxLength (n : Nat) : Nat :=
  ((ROUND_CONFIGS.find? (fun rc => rc.roundNumber == n)).map (fun rc => rc.maxLength)).getD 0

theorem length_zero_iff {s : String} : s.length = 0 ↔ s = "" := by
  constructor
  · intro h
    cases s with
    | mk l =>
      have hl : l = [] := List.length_eq_zero.mp h
      exact hl ▸ rfl
  · intro h
    exact h ▸ rfl

theorem roundPhase_none {n : Nat} (h : n < 1 ∨ 8 < n) : roundPhase n = none := by
  unfold roundPhase
  split_ifs <;> first | rfl | omega

theorem isValid_range {ph : Phase} {n : Nat} (h : isValidSubmissionPhase ph n = true) :
    1 ≤ n ∧ n ≤ 8 := by
  by_contra hc
  have hn : roundPhase n = none := roundPhase_none (by omega)
  rw [isValidSubmissionPhase, hn] at h
  exact absurd h (by simp)

theorem find?_roundConfig {n : Nat} (h1 : 1 ≤ n) (h2 : n ≤ 8) :
    ∃ rc, ROUND_CONFIGS.find? (fun rc => rc.roundNumber == n) = some rc ∧
      rc.maxLength = roundMaxLength n := by
  interval_cases n <;> exact ⟨_, rfl, rfl⟩

/-- Behaviour of `addSubmission` in all cases: acceptance is exactly
valid-phase + known player + no prior submission for the pair; rejection
leaves the state untouched; acceptance appends exactly one record for the
pair and touches nothing else. -/
theorem addSubmission_cases (gm : GMState) (pid : String) (n : Nat) (c subId : String)
    (now : Nat) :
    ((addSubmission gm pid n c subId now).1 = true ↔
      isValidSubmissionPhase gm.gameState.currentPhase n = true ∧
      (getPlayer gm pid).isSome = true ∧
      ((gm.submissions n).any (fun s => s.playerId == pid)) = false) ∧
    ((addSubmission gm pid n c subId now).1 = false →
      (addSubmission gm pid n c subId now).2 = gm) ∧
    ((addSubmission gm pid n c subId now).1 = true →
      ∃ player, getPlayer gm pid = some player ∧
        (addSubmission gm pid n c subId now).2.gameState = gm.gameState ∧
        (addSubmission gm pid n c subId now).2.votes = gm.votes ∧
        ∀ m, (addSubmission gm pid n c subId now).2.submissions m
          = if m = n then gm.submissions m ++ [⟨subId, pid, player.name, n, jsTrim c, now⟩]
            else gm.submissions m) := by
  unfold addSubmission
  cases hv : isValidSubmissionPhase gm.gameState.currentPhase n with
  | false => simp [hv]
  | true =>
    cases hp : getPlayer gm pid with
    | none => simp [hv, hp]
    | some player =>
      cases hd : (gm.submissions n).any (fun s => s.playerId == pid) with
      | true => simp [hv, hp, hd]
      | false =>
        refine ⟨by simp [hv, hp, hd], by simp [hv, hp, hd], ?_⟩
        intro _
        exact ⟨player, rfl, rfl, rfl, fun m => rfl⟩

/-- C2 counterexample: in round 1 with a known player and no prior
submission, a 151-character body whose trailing whitespace brings the
trimmed length to 2 is *accepted*, although the raw content exceeds the
round's 150-character bound — so "rejected unless … content within the
round's length bound" is false of the raw content. -/
def C2gameState : GameState :=
  { baseGameState with currentPhase := .round1, players := [mkPlayer "p1" "n1"] }

def C2gm : GMState :=
  { gameState := C2gameState, submissions := fun _ => [], votes := [] }

def C2content : String := "hi" ++ String.mk (List.replicate 149 ' ')

set_option maxRecDepth 8000 in
theorem submit_accepts_over_length_content :
    150 < C2content.length ∧
    (submitRoute C2gm "p1" 1 C2content "s1" 0).1 = true := by
  constructor
  · decide
  · decide

/-- C2 amended: a submit call is accepted (and records exactly one new
Submission, storing the trimmed content) iff the current phase is
`round{n}`, the player exists, the *trimmed* content is non-empty and
within the round's configured bound, and no prior submission exists for
the (player, round) pair; otherwise it rejects and the state is untouched. -/
theorem submitRoute_spec (gm : GMState) (pid : String) (n : Nat) (content subId : String)
    (now : Nat) :
    ((submitRoute gm pid n content subId now).1 = true ↔
      isValidSubmissionPhase gm.gameState.currentPhase n = true ∧
      (getPlayer gm pid).isSome = true ∧
      jsTrim content ≠ "" ∧
      (jsTrim content).length ≤ roundMaxLength n ∧
      ((gm.submissions n).any (fun s => s.playerId == pid)) = false) ∧
    ((submitRoute gm pid n content subId now).1 = false →
      (submitRoute gm pid n content subId now).2 = gm) ∧
    ((submitRoute gm pid n content subId now).1 = true →
      ∃ player, getPlayer gm pid = some player ∧
        (submitRoute gm pid n content subId now).2.gameState = gm.gameState ∧
        (submitRoute gm pid n content subId now).2.votes = gm.votes ∧
        ∀ m, (submitRoute gm pid n content subId now).2.submissions m
          = if m = n then gm.submissions m
              ++ [⟨subId, pid, player.name, n, jsTrim (jsTrim content), now⟩]
            else gm.submissions m) := by
  by_cases h0 : (jsTrim content).length = 0
  · have h0s : jsTrim content = "" := length_zero_iff.mp h0
    have hroute : submitRoute gm pid n content subId now = (false, gm) := by
      unfold submitRoute
      rw [if_pos h0]
    rw [hroute]
    exact ⟨by simp [h0s], fun _ => rfl, fun h => absurd h (by simp)⟩
  · by_cases h1 : n < 1 ∨ n > 8
    · have hv : isValidSubmissionPhase gm.gameState.currentPhase n = false := by
        rw [isValidSubmissionPhase, roundPhase_none h1]
      have hroute : submitRoute gm pid n content subId now = (false, gm) := by
        unfold submitRoute
        rw [if_neg h0, if_pos h1]
      rw [hroute]
      exact ⟨by simp [hv], fun _ => rfl, fun h => absurd h (by simp)⟩
    · push_neg at h1
      obtain ⟨rc, hrc, hmax⟩ := find?_roundConfig h1.1 h1.2
      have hns : ¬ (n < 1 ∨ n > 8) := by omega
      by_cases hlen : (jsTrim content).length > rc.maxLength
      · have hgt : ¬ ((jsTrim content).length ≤ roundMaxLength n) := by omega
        have hroute : submitRoute gm pid n content subId now = (false, gm) := by
          unfold submitRoute
          rw [if_neg h0, if_neg hns, hrc]
          simp only [if_pos hlen]
        rw [hroute]
        refine ⟨?_, fun _ => rfl, fun h => absurd h (by simp)⟩
        constructor
        · intro h; exact absurd h (by simp)
        · rintro ⟨_, _, _, hle, _⟩; exact absurd hle hgt
      · have hroute : submitRoute gm pid n content subId now
            = (match getPlayer gm pid with
               | none => (false, gm)
               | some _ => addSubmission gm pid n (jsTrim content) subId now) := by
          unfold submitRoute
          rw [if_neg h0, if_neg hns, hrc]
          simp only [if_neg hlen]
        cases hp : getPlayer gm pid with
        | none =>
          rw [hp] at hroute
          have hroute2 : submitRoute gm pid n content subId now = (false, gm) := hroute
          rw [hroute2]
          refine ⟨by simp, fun _ => rfl, fun h => absurd h (by simp)⟩
        | some player =>
          rw [hp] at hroute
          have hroute2 : submitRoute gm pid n content subId now
              = addSubmission gm pid n (jsTrim content) subId now := hroute
          rw [hroute2]
          have hcases := addSubmission_cases gm pid n (jsTrim content) subId now
          rw [hp] at hcases
          refine ⟨?_, hcases.2.1, hcases.2.2⟩
          rw [hcases.1]
          constructor
          · rintro ⟨a, _, b⟩
            exact ⟨a, rfl, length_zero_iff.not.mp h0, by omega, b⟩
          · rintro ⟨a, b, _, _, e⟩
            exact ⟨a, b, e⟩

/-- C2 witness: an in-range submission on the concrete round-1 state is
accepted and recorded under round 1. -/
theorem submitRoute_spec_witness :
    (submitRoute C2gm "p1" 1 "hello" "s1" 7).1 = true ∧
    (submitRoute C2gm "p1" 1 "hello" "s1" 7).2.submissions 1
      = [⟨"s1", "p1", "n1", 1, jsTrim (jsTrim "hello"), 7⟩] := by
  have h := submitRoute_spec C2gm "p1" 1 "hello" "s1" 7
  have hacc : (submitRoute C2gm "p1" 1 "hello" "s1" 7).1 = true := by
    rw [h.1]
    refine ⟨by decide, by decide, by decide, by decide, by decide⟩
  obtain ⟨player, hplayer, _, _, hsub⟩ := h.2.2 hacc
  refine ⟨hacc, ?_⟩
  have hpe : player = mkPlayer "p1" "n1" := by
    have h2 : some player = some (mkPlayer "p1" "n1") := by
      rw [← hplayer]; decide
    exact Option.some.inj h2
  have hm := hsub 1
  rw [hm, if_pos rfl, hpe]
  rfl

/-! ### C6 -/

/-- Arguments of one `addSubmission` call, with its generated id and clock. -/
structure SubCall where
  playerId : String
  roundNumber : Nat
  content : String
  subId : String
  now : Nat

/-- A sequence of `addSubmission` calls. -/
def runSubmits (gm : GMState) (calls : List SubCall) : GMState :=
  calls.foldl
    (fun g c => (addSubmission g c.playerId c.roundNumber c.content c.subId c.now).2) gm

/-- At most one stored Submission per (playerId, roundNumber) pair. -/
def SubUnique (subs : Nat → List Submission) : Prop :=
  ∀ n pid, ((subs n).filter (fun s => s.playerId == pid)).length ≤ 1

theorem length_filter_le_of_imp {α : Type} (p q : α → Bool) (l : List α)
    (h : ∀ a, p a = true → q a = true) :
    (l.filter p).length ≤ (l.filter q).length := by
  induction l with
  | nil => simp
  | cons a t ih =>
    rw [List.filter_cons, List.filter_cons]
    by_cases hp : p a = true
    · rw [if_pos hp, if_pos (h a hp)]
      simpa using ih
    · rw [if_neg hp]
      split
      · exact Nat.le_succ_of_le ih
      · exact ih

/-- A call for a pair that already has a stored submission rejects and leaves
the state untouched. -/
theorem addSubmission_dup_reject (gm : GMState) (pid : String) (n : Nat) (c i : String)
    (t : Nat) (hd : ((gm.submissions n).any (fun s => s.playerId == pid)) = true) :
    addSubmission gm pid n c i t = (false, gm) := by
  have hcases := addSubmission_cases gm pid n c i t
  cases hf : (addSubmission gm pid n c i t).1 with
  | true =>
    have hcontra := (hcases.1.mp hf).2.2
    rw [hd] at hcontra
    cases hcontra
  | false =>
    exact Prod.ext_iff.mpr ⟨hf, hcases.2.1 hf⟩

/-- One `addSubmission` call preserves pair-uniqueness and every stored
record. -/
theorem addSubmission_step (gm : GMState) (h : SubUnique gm.submissions)
    (pid : String) (n : Nat) (c i : String) (t : Nat) :
    SubUnique (addSubmission gm pid n c i t).2.submissions ∧
    ∀ m s, s ∈ gm.submissions m → s ∈ (addSubmission gm pid n c i t).2.submissions m := by
  have hcases := addSubmission_cases gm pid n c i t
  cases hf : (addSubmission gm pid n c i t).1 with
  | false =>
    rw [hcases.2.1 hf]
    exact ⟨h, fun m s hs => hs⟩
  | true =>
    obtain ⟨player, hplayer, _, _, hsubs⟩ := hcases.2.2 hf
    have hnone : ((gm.submissions n).any (fun s => s.playerId == pid)) = false :=
      (hcases.1.mp hf).2.2
    have hfree : ∀ s ∈ gm.submissions n, ¬ (s.playerId == pid) = true :=
      List.any_eq_false.mp hnone
    constructor
    · intro m pid'
      rw [hsubs m]
      by_cases hm : m = n
      · subst hm
        rw [if_pos rfl, List.filter_append, List.length_append]
        by_cases hp : pid' = pid
        · subst hp
          have hz : (gm.submissions m).filter (fun s => s.playerId == pid') = [] :=
            List.filter_eq_nil.mpr hfree
          rw [hz]
          simpa using List.length_filter_le _ _
        · have hbeq : ((pid : String) == pid') = false :=
            beq_eq_false_iff_ne.mpr (fun he => hp he.symm)
          have hz : List.filter (fun s => s.playerId == pid')
              [(⟨i, pid, player.name, m, jsTrim c, t⟩ : Submission)] = [] := by
            simp [List.filter, hbeq]
          rw [hz]
          simpa using h m pid'
      · rw [if_neg hm]
        exact h m pid'
    · intro m s hs
      rw [hsubs m]
      by_cases hm : m = n
      · subst hm
        rw [if_pos rfl]
        exact List.mem_append_left _ hs
      · rw [if_neg hm]
        exact hs

/-- C6: over every sequence of submit calls from a state with at most one
Submission per (player, round) pair (e.g. the initial empty map), the
invariant is maintained, every stored Submission survives unmodified, and
a call for a pair that already has a Submission always rejects without
changing anything. -/
theorem submissions_at_most_one_per_pair (gm : GMState) (h : SubUnique gm.submissions)
    (calls : List SubCall) :
    SubUnique (runSubmits gm calls).submissions ∧
    (∀ n s, s ∈ gm.submissions n → s ∈ (runSubmits gm calls).submissions n) ∧
    ∀ pid n c i t,
      (((runSubmits gm calls).submissions n).any (fun s => s.playerId == pid)) = true →
      addSubmission (runSubmits gm calls) pid n c i t = (false, runSubmits gm calls) := by
  induction calls generalizing gm with
  | nil =>
    exact ⟨h, fun n s hs => hs, fun pid n c i t hd => addSubmission_dup_reject _ _ _ _ _ _ hd⟩
  | cons c cs ih =>
    have hstep := addSubmission_step gm h c.playerId c.roundNumber c.content c.subId c.now
    have hih := ih _ hstep.1
    exact ⟨hih.1, fun n s hs => hih.2.1 n s (hstep.2 n s hs), hih.2.2⟩

def C6gm : GMState :=
  { gameState := { baseGameState with currentPhase := .round1, players := [mkPlayer "p1" "n1"] },
    submissions := fun _ => [],
    votes := [] }

/-- C6 witness: the invariant run over a concrete two-call sequence (the
second call duplicates the first pair). -/
theorem submissions_at_most_one_per_pair_witness :
    SubUnique (runSubmits C6gm [⟨"p1", 1, "a", "s1", 0⟩, ⟨"p1", 1, "b", "s2", 1⟩]).submissions ∧
    (∀ n s, s ∈ C6gm.submissions n →
      s ∈ (runSubmits C6gm [⟨"p1", 1, "a", "s1", 0⟩, ⟨"p1", 1, "b", "s2", 1⟩]).submissions n) ∧
    ∀ pid n c i t,
      (((runSubmits C6gm [⟨"p1", 1, "a", "s1", 0⟩, ⟨"p1", 1, "b", "s2", 1⟩]).submissions n).any
          (fun s => s.playerId == pid)) = true →
      addSubmission (runSubmits C6gm [⟨"p1", 1, "a", "s1", 0⟩, ⟨"p1", 1, "b", "s2", 1⟩]) pid n c i t
        = (false, runSubmits C6gm [⟨"p1", 1, "a", "s1", 0⟩, ⟨"p1", 1, "b", "s2", 1⟩]) :=
  submissions_at_most_one_per_pair C6gm (fun n pid => by simp [C6gm]) _

/-! ### C7 -/

/-- Arguments of one `addVote` call, with its generated id and clock. -/
structure VoteCall where
  voterId : String
  targetPlayerId : String
  predictedRole : PlayerRole
  voteId : String
  now : Nat

/-- A sequence of `addVote` calls. -/
def runVotes (gm : GMState) (calls : List VoteCall) : GMState :=
  calls.foldl
    (fun g c => (addVote g c.voterId c.targetPlayerId c.predictedRole c.voteId c.now).2) gm

/-- The (voter, target) pair predicate used by `addVote`. -/
def votePair (a b : String) (v : Vote) : Bool :=
  v.voterId == a && v.targetPlayerId == b

/-- At most one retained Vote per (voterId, targetPlayerId) pair. -/
def VoteUnique (votes : List Vote) : Prop :=
  ∀ a b, ((votes.filter (votePair a b)).length ≤ 1)

/-- No retained Vote is a self-vote. -/
def NoSelfVotes (votes : List Vote) : Prop :=
  ∀ v ∈ votes, v.voterId ≠ v.targetPlayerId

/-- One `addVote` call: preserves both invariants, rejects self-votes
unchanged, and an accepted call leaves exactly one vote (the new one) for
its pair. -/
theorem addVote_step (gm : GMState) (h1 : VoteUnique gm.votes) (h2 : NoSelfVotes gm.votes)
    (vid tid : String) (role : PlayerRole) (id : String) (t : Nat) :
    VoteUnique (addVote gm vid tid role id t).2.votes ∧
    NoSelfVotes (addVote gm vid tid role id t).2.votes ∧
    (vid = tid → addVote gm vid tid role id t = (false, gm)) ∧
    ((addVote gm vid tid role id t).1 = true →
      ((addVote gm vid tid role id t).2.votes.filter (votePair vid tid)).map
          (fun v => v.predictedRole) = [role]) := by
  unfold addVote
  by_cases hph : gm.gameState.currentPhase ≠ Phase.voting
  · rw [if_pos hph]
    exact ⟨h1, h2, fun _ => rfl, fun hcontra => absurd hcontra (by simp)⟩
  · rw [if_neg hph]
    split
    · next voter target hveq hteq =>
        by_cases hself : (vid == tid) = true
        · rw [if_pos hself]
          exact ⟨h1, h2, fun _ => rfl, fun hcontra => absurd hcontra (by simp)⟩
        · rw [if_neg hself]
          have hne : vid ≠ tid := by
            intro he
            exact hself (beq_iff_eq.mpr he)
          have hkept : ∀ a b,
              ((gm.votes.filter (fun v => !(v.voterId == vid && v.targetPlayerId == tid))).filter
                  (votePair a b)).length
                ≤ ((gm.votes.filter (votePair a b))).length := by
            intro a b
            rw [List.filter_comm]
            exact List.length_filter_le _ _
          have hkeptnil :
              ((gm.votes.filter (fun v => !(v.voterId == vid && v.targetPlayerId == tid))).filter
                (votePair vid tid)) = [] := by
            rw [List.filter_comm]
            apply List.filter_eq_nil_iff.mpr
            intro v hv
            rw [List.mem_filter] at hv
            have hp : (v.voterId == vid && v.targetPlayerId == tid) = true := hv.2
            simp [hp]
          refine ⟨?_, ?_, fun he => absurd he hne, ?_⟩
          · intro a b
            show ((_ ++ [(⟨id, vid, voter.name, tid, target.name, role, t⟩ : Vote)]).filter
              (votePair a b)).length ≤ 1
            rw [List.filter_append, List.length_append]
            by_cases hab : a = vid ∧ b = tid
            · obtain ⟨rfl, rfl⟩ := hab
              rw [hkeptnil]
              simpa using List.length_filter_le _ _
            · have hnew : List.filter (votePair a b)
                  [(⟨id, vid, voter.name, tid, target.name, role, t⟩ : Vote)] = [] := by
                rcases not_and_or.mp hab with hna | hnb
                · have : ((vid : String) == a) = false :=
                    beq_eq_false_iff_ne.mpr (fun he => hna he.symm)
                  simp [List.filter, votePair, this]
                · have : ((tid : String) == b) = false :=
                    beq_eq_false_iff_ne.mpr (fun he => hnb he.symm)
                  simp [List.filter, votePair, this]
              rw [hnew]
              simpa using le_trans (hkept a b) (h1 a b)
          · intro v hv
            show v.voterId ≠ v.targetPlayerId
            rcases List.mem_append.mp hv with hm | hm
            · exact h2 v (List.mem_filter.mp hm).1
            · rcases List.mem_singleton.mp hm with rfl
              exact hne
          · intro _
            show ((_ ++ [(⟨id, vid, voter.name, tid, target.name, role, t⟩ : Vote)]).filter
              (votePair vid tid)).map (fun v => v.predictedRole) = [role]
            rw [List.filter_append, hkeptnil]
            simp [List.filter, votePair]
    · exact ⟨h1, h2, fun _ => rfl, fun hcontra => absurd hcontra (by simp)⟩

/-- C7: over every sequence of vote calls from a state with at most one Vote
per (voter, target) pair and no self-votes (e.g. the initial empty list),
both invariants are maintained, every self-vote call rejects unchanged,
and after any accepted call only the most recent predicted role is
retained for that pair. -/
theorem votes_replaced_per_pair (gm : GMState) (h1 : VoteUnique gm.votes)
    (h2 : NoSelfVotes gm.votes) (calls : List VoteCall) :
    VoteUnique (runVotes gm calls).votes ∧
    NoSelfVotes (runVotes gm calls).votes ∧
    (∀ vid role id t, addVote (runVotes gm calls) vid vid role id t
      = (false, runVotes gm calls)) ∧
    ∀ vid tid role id t,
      (addVote (runVotes gm calls) vid tid role id t).1 = true →
      ((addVote (runVotes gm calls) vid tid role id t).2.votes.filter (votePair vid tid)).map
          (fun v => v.predictedRole) = [role] := by
  induction calls generalizing gm with
  | nil =>
    refine ⟨h1, h2, ?_, ?_⟩
    · intro vid role id t
      exact (addVote_step gm h1 h2 vid vid role id t).2.2.1 rfl
    · intro vid tid role id t
      exact (addVote_step gm h1 h2 vid tid role id t).2.2.2
  | cons c cs ih =>
    have hstep := addVote_step gm h1 h2 c.voterId c.targetPlayerId c.predictedRole c.voteId c.now
    exact ih _ hstep.1 hstep.2.1

def C7gameState : GameState :=
  { baseGameState with
      currentPhase := .voting
      players := [mkPlayer "p1" "n1", mkPlayer "p2" "n2"] }

def C7gm : GMState :=
  { gameState := C7gameState, submissions := fun _ => [], votes := [] }

/-- C7 witness: the invariants run over a concrete re-vote sequence. -/
theorem votes_replaced_per_pair_witness :
    VoteUnique (runVotes C7gm [⟨"p1", "p2", .troll, "v1", 0⟩, ⟨"p1", "p2", .human, "v2", 1⟩]).votes ∧
    NoSelfVotes (runVotes C7gm [⟨"p1", "p2", .troll, "v1", 0⟩, ⟨"p1", "p2", .human, "v2", 1⟩]).votes ∧
    (∀ vid role id t,
      addVote (runVotes C7gm [⟨"p1", "p2", .troll, "v1", 0⟩, ⟨"p1", "p2", .human, "v2", 1⟩])
          vid vid role id t
        = (false, runVotes C7gm [⟨"p1", "p2", .troll, "v1", 0⟩, ⟨"p1", "p2", .human, "v2", 1⟩])) ∧
    ∀ vid tid role id t,
      (addVote (runVotes C7gm [⟨"p1", "p2", .troll, "v1", 0⟩, ⟨"p1", "p2", .human, "v2", 1⟩])
          vid tid role id t).1 = true →
      ((addVote (runVotes C7gm [⟨"p1", "p2", .troll, "v1", 0⟩, ⟨"p1", "p2", .human, "v2", 1⟩])
          vid tid role id t).2.votes.filter (votePair vid tid)).map
          (fun v => v.predictedRole) = [role] :=
  votes_replaced_per_pair C7gm (fun a b => by simp [C7gm]) (fun v hv => by simp [C7gm] at hv) _

/-! ### Map model lemmas -/

theorem find?_map_update {β : Type} (m : List (String × β)) (k : String) (v : β)
    (hany : m.any (fun e => e.1 == k) = true) :
    (m.map (fun e => if e.1 == k then (k, v) else e)).find? (fun e => e.1 == k)
      = some (k, v) := by
  induction m with
  | nil => cases hany
  | cons e t ih =>
    rw [List.map_cons, List.find?_cons]
    by_cases he : (e.1 == k) = true
    · rw [if_pos he]
      simp
    · rw [if_neg he]
      have he' : (e.1 == k) = false := by simpa using he
      rw [List.any_cons, he'] at hany
      simp only [Bool.false_or] at hany
      simp only [he']
      exact ih hany

theorem find?_map_update_ne {β : Type} (m : List (String × β)) (k r : String) (v : β)
    (h : r ≠ k) :
    (m.map (fun e => if e.1 == k then (k, v) else e)).find? (fun e => e.1 == r)
      = m.find? (fun e => e.1 == r) := by
  induction m with
  | nil => rfl
  | cons e t ih =>
    rw [List.map_cons, List.find?_cons, List.find?_cons]
    by_cases he : (e.1 == k) = true
    · rw [if_pos he]
      have hek : e.1 = k := beq_iff_eq.mp he
      have h1 : ((k : String) == r) = false := beq_eq_false_iff_ne.mpr (fun he2 => h he2.symm)
      have h2 : (e.1 == r) = false := by
        rw [hek]
        exact h1
      simp only [h1, h2]
      exact ih
    · rw [if_neg he]
      cases her : (e.1 == r) with
      | true => simp [her]
      | false => simp only [her]; exact ih

theorem mapGet_set_self {β : Type} (m : List (String × β)) (k : String) (v : β) :
    mapGet (mapSet m k v) k = some v := by
  unfold mapGet mapSet
  by_cases hany : (m.any (fun e => e.1 == k)) = true
  · rw [if_pos hany, find?_map_update m k v hany]
    rfl
  · rw [if_neg hany, List.find?_append]
    have hnone : m.find? (fun e => e.1 == k) = none := by
      rw [List.find?_eq_none]
      intro x hx hpx
      exact hany (List.any_eq_true.mpr ⟨x, hx, hpx⟩)
    rw [hnone]
    simp [List.find?]

theorem mapGet_set_ne {β : Type} (m : List (String × β)) (k r : String) (v : β)
    (h : r ≠ k) : mapGet (mapSet m k v) r = mapGet m r := by
  unfold mapGet mapSet
  by_cases hany : (m.any (fun e => e.1 == k)) = true
  · rw [if_pos hany, find?_map_update_ne m k r v h]
  · rw [if_neg hany, List.find?_append]
    have hk : ((k : String) == r) = false := beq_eq_false_iff_ne.mpr (fun he => h he.symm)
    cases hres : m.find? (fun e => e.1 == r) with
    | some e => rfl
    | none => simp [List.find?, hk]

theorem mapGet_delete_self {β : Type} (m : List (String × β)) (k : String) :
    mapGet (mapDelete m k) k = none := by
  unfold mapGet mapDelete
  have hnone : (m.filter (fun e => !(e.1 == k))).find? (fun e => e.1 == k) = none := by
    rw [List.find?_eq_none]
    intro x hx
    have := (List.mem_filter.mp hx).2
    simp only [Bool.not_eq_true'] at this
    simp [this]
  rw [hnone]
  rfl

theorem mapGet_delete_ne {β : Type} (m : List (String × β)) (k r : String) (h : r ≠ k) :
    mapGet (mapDelete m k) r = mapGet m r := by
  unfold mapGet mapDelete
  congr 1
  induction m with
  | nil => rfl
  | cons e t ih =>
    rw [List.filter_cons]
    by_cases he : (e.1 == k) = true
    · have hek : e.1 = k := beq_iff_eq.mp he
      have h2 : (e.1 == r) = false := by
        rw [hek]
        exact beq_eq_false_iff_ne.mpr (fun he2 => h he2.symm)
      rw [if_neg (by simp [he])]
      rw [List.find?_cons, h2]
      exact ih
    · rw [if_pos (by simpa using he)]
      rw [List.find?_cons, List.find?_cons]
      cases her : (e.1 == r) with
      | true => rfl
      | false => exact ih

/-! ### C10 -/

/-- `getSession` in `Option.bind` form. -/
theorem getSession_eq (sm : SMState) (q : String) :
    getSession sm q
      = (mapGet sm.playerSessions q).bind
          (fun rid => (mapGet sm.rooms rid).bind
            (fun room => mapGet room.sessions q)) := by
  unfold getSession
  cases h1 : mapGet sm.playerSessions q with
  | none => rfl
  | some rid =>
    show (match mapGet sm.rooms rid with
          | none => (none : Option SessionData)
          | some room => mapGet room.sessions q)
        = (mapGet sm.rooms rid).bind (fun room => mapGet room.sessions q)
    cases h2 : mapGet sm.rooms rid with
    | none => rfl
    | some room => rfl

/-- `removeSession` touches only the given id: other ids keep their session
records, the id's record is gone, and no room's saved game state changes. -/
theorem removeSession_effect (sm : SMState) (pid : String) (now : Nat) :
    (∀ q, q ≠ pid → getSession (removeSession sm pid now) q = getSession sm q) ∧
    getSession (removeSession sm pid now) pid = none ∧
    ∀ r, (mapGet (removeSession sm pid now).rooms r).map RoomData.gameState
        = (mapGet sm.rooms r).map RoomData.gameState := by
  unfold removeSession
  split
  · next hps =>
      refine ⟨fun q hq => rfl, ?_, fun r => rfl⟩
      rw [getSession_eq, hps]
      rfl
  · next roomId hps =>
      split
      · next hr =>
          refine ⟨fun q hq => rfl, ?_, fun r => rfl⟩
          rw [getSession_eq, hps]
          show (mapGet sm.rooms roomId).bind _ = none
          rw [hr]
          rfl
      · next room hr =>
          refine ⟨?_, ?_, ?_⟩
          · intro q hq
            rw [getSession_eq, getSession_eq]
            show (mapGet (mapDelete sm.playerSessions pid) q).bind _
              = (mapGet sm.playerSessions q).bind _
            rw [mapGet_delete_ne sm.playerSessions pid q hq]
            refine congrArg (Option.bind _) (funext fun rid => ?_)
            show (mapGet (mapSet sm.rooms roomId (removeSessionRoom room pid now)) rid).bind _
              = (mapGet sm.rooms rid).bind _
            by_cases hrid : rid = roomId
            · subst hrid
              rw [mapGet_set_self, hr]
              show mapGet (mapDelete room.sessions pid) q = mapGet room.sessions q
              exact mapGet_delete_ne _ _ _ hq
            · rw [mapGet_set_ne sm.rooms roomId rid _ hrid]
          · rw [getSession_eq]
            show (mapGet (mapDelete sm.playerSessions pid) pid).bind _ = none
            rw [mapGet_delete_self]
            rfl
          · intro r
            show (mapGet (mapSet sm.rooms roomId (removeSessionRoom room pid now)) r).map
                RoomData.gameState = _
            by_cases hrr : r = roomId
            · subst hrr
              rw [mapGet_set_self, hr]
              rfl
            · rw [mapGet_set_ne sm.rooms roomId r _ hrr]

/-- C10 amended: for an id that is neither a roster player nor the admin,
`removePlayer` returns false and leaves the orchestrator state unchanged —
but it has already deleted the id's session-store record (the
unconditional `removeSession` call runs before the roster check).  Other
ids' sessions and every room's saved game state are untouched. -/
theorem removePlayer_rejected_effects (sys : Sys) (pid : String) (now : Nat)
    (h : getPlayer sys.gm pid = none) :
    (removePlayer sys pid now).1 = false ∧
    (removePlayer sys pid now).2.gm = sys.gm ∧
    (∀ q, q ≠ pid → getSession (removePlayer sys pid now).2.sm q = getSession sys.sm q) ∧
    getSession (removePlayer sys pid now).2.sm pid = none ∧
    ∀ r, (mapGet (removePlayer sys pid now).2.sm.rooms r).map RoomData.gameState
        = (mapGet sys.sm.rooms r).map RoomData.gameState := by
  have hfind : sys.gm.gameState.players.find? (fun p => p.id == pid) = none := by
    unfold getPlayer at h
    cases hadm : sys.gm.gameState.adminPlayer with
    | none => rw [hadm] at h; exact h
    | some a =>
      rw [hadm] at h
      have h2 : (if (a.id == pid) = true then some a
          else sys.gm.gameState.players.find? (fun p => p.id == pid)) = none := h
      by_cases ha : (a.id == pid) = true
      · rw [if_pos ha] at h2; cases h2
      · rw [if_neg ha] at h2; exact h2
  have hidx : sys.gm.gameState.players.findIdx? (fun p => p.id == pid) = none := by
    rw [List.findIdx?_eq_none_iff]
    intro x hx
    have := List.find?_eq_none.mp hfind x hx
    simpa using this
  have hremove : removePlayer sys pid now = (false, ⟨sys.gm, removeSession sys.sm pid now⟩) := by
    unfold removePlayer
    cases hadm : sys.gm.gameState.adminPlayer with
    | none => rw [hidx]
    | some a =>
      have ha : (a.id == pid) = false := by
        unfold getPlayer at h
        rw [hadm] at h
        have h2 : (if (a.id == pid) = true then some a
            else sys.gm.gameState.players.find? (fun p => p.id == pid)) = none := h
        by_cases hb : (a.id == pid) = true
        · rw [if_pos hb] at h2; cases h2
        · simpa using hb
      simp only [ha, Bool.false_eq_true, if_false, hidx]
  rw [hremove]
  have heff := removeSession_effect sys.sm pid now
  exact ⟨rfl, rfl, heff.1, heff.2.1, heff.2.2⟩

def C10session : SessionData :=
  { playerId := "p1", playerName := "n1", isAdmin := false, joinedAt := 0, lastSeen := 0,
    connectionHistory := [⟨0, none⟩], totalConnections := 1, version := 1, checksum := "" }

def C10room : RoomData :=
  { id := "main", createdAt := 0, lastActivity := 0, sessions := [("p1", C10session)],
    gameState := none, adminSession := none, backup := none, version := 1,
    integrity := ⟨"", 0⟩ }

def C10sys : Sys :=
  { gm := { gameState := baseGameState, submissions := fun _ => [], votes := [] },
    sm := { rooms := [("main", C10room)], playerSessions := [("p1", "main")] } }

/-- C10 counterexample: `"p1"` is neither in the (empty) roster nor the
admin, so `leave("p1")` returns false — yet its session-store record,
present before the call, is gone afterwards: the rejected operation did
mutate the session store. -/
theorem removePlayer_rejected_mutates_store :
    (removePlayer C10sys "p1" 5).1 = false ∧
    getSession C10sys.sm "p1" = some C10session ∧
    getSession (removePlayer C10sys "p1" 5).2.sm "p1" = none := by
  decide

/-- C10 witness: the amended theorem applied at the concrete state above. -/
theorem removePlayer_rejected_effects_witness :
    (removePlayer C10sys "p1" 5).1 = false ∧
    (removePlayer C10sys "p1" 5).2.gm = C10sys.gm ∧
    (∀ q, q ≠ "p1" → getSession (removePlayer C10sys "p1" 5).2.sm q = getSession C10sys.sm q) ∧
    getSession (removePlayer C10sys "p1" 5).2.sm "p1" = none ∧
    ∀ r, (mapGet (removePlayer C10sys "p1" 5).2.sm.rooms r).map RoomData.gameState
        = (mapGet C10sys.sm.rooms r).map RoomData.gameState :=
  removePlayer_rejected_effects C10sys "p1" 5 (by decide)

/-! ### C9 -/

set_option maxHeartbeats 1000000 in
/-- C9: accessing an existing room whose recomputed checksum over
(sessions, game state) disagrees with the stored checksum restores the
room from its backup — every session of the most recent backup is
recovered along with the backed-up game state — and when no backup exists
(the only way the restore step can fail, since the in-memory copy cannot
throw) the room is hard-reset to empty sessions and null game state.  The
resulting room is what the store then holds. -/
theorem getOrCreateRoom_integrity (sm : SMState) (roomId : String) (now : Nat)
    (room : RoomData) (hroom : mapGet sm.rooms roomId = some room)
    (hbad : roomChecksum room.sessions room.gameState ≠ room.integrity.checksum) :
    (match room.backup with
     | some b =>
       (getOrCreateRoom sm roomId now).1.sessions = b.sessionBackup ∧
       (getOrCreateRoom sm roomId now).1.gameState = b.gameState
     | none =>
       (getOrCreateRoom sm roomId now).1.sessions = [] ∧
       (getOrCreateRoom sm roomId now).1.gameState = none) ∧
    mapGet (getOrCreateRoom sm roomId now).2.rooms roomId
      = some (getOrCreateRoom sm roomId now).1 := by
  have hacc : roomAtAccess sm roomId now = { room with lastActivity := now } := by
    unfold roomAtAccess
    rw [hroom]
  have hver : ¬ (verifyIntegrity { room with lastActivity := now } = true) := by
    unfold verifyIntegrity
    intro hcontra
    exact hbad (beq_iff_eq.mp hcontra)
  constructor
  · cases hb : room.backup with
    | some b =>
      have hres : (getOrCreateRoom sm roomId now).1
          = updateRoomIntegrity
              { room with
                  lastActivity := now
                  sessions := b.sessionBackup
                  gameState := b.gameState } now := by
        show verifyOrRestore (roomAtAccess sm roomId now) now = _
        rw [hacc]
        unfold verifyOrRestore
        rw [if_neg hver]
        have hrb : restoreFromBackup { room with lastActivity := now } now
            = (true, updateRoomIntegrity
                { room with
                    lastActivity := now
                    sessions := b.sessionBackup
                    gameState := b.gameState } now) := by
          unfold restoreFromBackup
          rw [show ({ room with lastActivity := now } : RoomData).backup = some b from hb]
        rw [hrb]
      rw [hres]
      exact ⟨rfl, rfl⟩
    | none =>
      have hres : (getOrCreateRoom sm roomId now).1
          = updateRoomIntegrity
              { room with
                  lastActivity := now
                  sessions := []
                  gameState := none } now := by
        show verifyOrRestore (roomAtAccess sm roomId now) now = _
        rw [hacc]
        unfold verifyOrRestore
        rw [if_neg hver]
        have hrb : restoreFromBackup { room with lastActivity := now } now
            = (false, { room with lastActivity := now }) := by
          unfold restoreFromBackup
          rw [show ({ room with lastActivity := now } : RoomData).backup = none from hb]
        rw [hrb]
      rw [hres]
      exact ⟨rfl, rfl⟩
  · show mapGet (mapSet sm.rooms roomId (verifyOrRestore (roomAtAccess sm roomId now) now))
        roomId = _
    exact mapGet_set_self _ _ _

def C9backupSession : SessionData :=
  { playerId := "p9", playerName := "n9", isAdmin := false, joinedAt := 0, lastSeen := 0,
    connectionHistory := [⟨0, none⟩], totalConnections := 1, version := 1, checksum := "c" }

def C9room : RoomData :=
  { id := "r", createdAt := 0, lastActivity := 0, sessions := [], gameState := none,
    adminSession := none, backup := some ⟨none, [("p9", C9backupSession)], 0⟩,
    version := 1, integrity := ⟨"corrupted", 0⟩ }

def C9sm : SMState := { rooms := [("r", C9room)], playerSessions := [] }

set_option maxRecDepth 10000 in
set_option maxHeartbeats 1000000 in
/-- C9 witness: a room with a corrupted stored checksum and a one-session
backup is restored from that backup on the next access. -/
theorem getOrCreateRoom_integrity_witness :
    (getOrCreateRoom C9sm "r" 5).1.sessions = [("p9", C9backupSession)] ∧
    (getOrCreateRoom C9sm "r" 5).1.gameState = none ∧
    mapGet (getOrCreateRoom C9sm "r" 5).2.rooms "r" = some (getOrCreateRoom C9sm "r" 5).1 := by
  have h := getOrCreateRoom_integrity C9sm "r" 5 C9room (by decide) (by decide)
  exact ⟨h.1.1, h.1.2, h.2⟩

/-! ### C8 helper lemmas -/

theorem smGetGameState_eq (sm : SMState) (r : String) :
    smGetGameState sm r = (mapGet sm.rooms r).bind (fun room => room.gameState) := by
  unfold smGetGameState
  cases h : mapGet sm.rooms r with
  | none => rfl
  | some room => rfl

theorem getSession_elim (sm : SMState) (pid : String) (session : SessionData)
    (h : getSession sm pid = some session) :
    ∃ roomId room, mapGet sm.playerSessions pid = some roomId ∧
      mapGet sm.rooms roomId = some room ∧ mapGet room.sessions pid = some session := by
  rw [getSession_eq] at h
  cases hps : mapGet sm.playerSessions pid with
  | none => rw [hps] at h; cases h
  | some rid =>
    rw [hps] at h
    have h2 : (mapGet sm.rooms rid).bind (fun room => mapGet room.sessions pid)
        = some session := h
    cases hr : mapGet sm.rooms rid with
    | none => rw [hr] at h2; cases h2
    | some room =>
      rw [hr] at h2
      exact ⟨rid, room, rfl, hr, h2⟩

theorem updateSessionActivity_eq (sm : SMState) (pid : String) (now : Nat)
    (roomId : String) (room : RoomData) (session : SessionData)
    (hps : mapGet sm.playerSessions pid = some roomId)
    (hr : mapGet sm.rooms roomId = some room)
    (hs : mapGet room.sessions pid = some session) :
    updateSessionActivity sm pid now
      = { sm with rooms := mapSet sm.rooms roomId (touchedRoom room pid session now) } := by
  unfold updateSessionActivity
  rw [hps]
  show (match mapGet sm.rooms roomId with
        | none => sm
        | some room =>
          match mapGet room.sessions pid with
          | none => sm
          | some s => { sm with rooms := mapSet sm.rooms roomId (touchedRoom room pid s now) })
      = _
  rw [hr]
  show (match mapGet room.sessions pid with
        | none => sm
        | some s => { sm with rooms := mapSet sm.rooms roomId (touchedRoom room pid s now) })
      = _
  rw [hs]

theorem saveGameState_ps (sm : SMState) (gs : GameState) (r : String) (now : Nat) :
    (saveGameState sm gs r now).playerSessions = sm.playerSessions := by
  unfold saveGameState
  cases h : mapGet sm.rooms r with
  | none => rfl
  | some room => rfl

theorem saveGameState_sessions (sm : SMState) (gs : GameState) (r : String) (now : Nat)
    (rid : String) :
    (mapGet (saveGameState sm gs r now).rooms rid).map RoomData.sessions
      = (mapGet sm.rooms rid).map RoomData.sessions := by
  unfold saveGameState
  cases h : mapGet sm.rooms r with
  | none => rfl
  | some room =>
    show (mapGet (mapSet sm.rooms r { room with gameState := some gs, lastActivity := now })
        rid).map RoomData.sessions = _
    by_cases hrr : rid = r
    · subst hrr
      rw [mapGet_set_self, h]
      rfl
    · rw [mapGet_set_ne _ _ _ _ hrr]

theorem saveGameState_room_self (sm : SMState) (gs : GameState) (r : String) (now : Nat)
    (room : RoomData) (h : mapGet sm.rooms r = some room) :
    mapGet (saveGameState sm gs r now).rooms r
      = some { room with gameState := some gs, lastActivity := now } := by
  unfold saveGameState
  rw [h]
  show mapGet (mapSet sm.rooms r { room with gameState := some gs, lastActivity := now }) r = _
  exact mapGet_set_self _ _ _

theorem saveGameState_room_other (sm : SMState) (gs : GameState) (r : String) (now : Nat)
    (rid : String) (hne : rid ≠ r) :
    mapGet (saveGameState sm gs r now).rooms rid = mapGet sm.rooms rid := by
  unfold saveGameState
  cases h : mapGet sm.rooms r with
  | none => rfl
  | some room =>
    show mapGet (mapSet sm.rooms r { room with gameState := some gs, lastActivity := now })
        rid = _
    exact mapGet_set_ne _ _ _ _ hne

theorem getSession_stable (sm sm2 : SMState)
    (hps : sm2.playerSessions = sm.playerSessions)
    (hrooms : ∀ rid, (mapGet sm2.rooms rid).map RoomData.sessions
        = (mapGet sm.rooms rid).map RoomData.sessions)
    (q : String) : getSession sm2 q = getSession sm q := by
  rw [getSession_eq, getSession_eq, hps]
  refine congrArg (Option.bind _) (funext fun rid => ?_)
  have h := hrooms rid
  cases h1 : mapGet sm2.rooms rid with
  | none =>
    cases h2 : mapGet sm.rooms rid with
    | none => rfl
    | some room2 => rw [h1, h2] at h; cases h
  | some room1 =>
    cases h2 : mapGet sm.rooms rid with
    | none => rw [h1, h2] at h; cases h
    | some room2 =>
      rw [h1, h2] at h
      have hsess : room1.sessions = room2.sessions := by
        simpa using h
      show mapGet room1.sessions q = mapGet room2.sessions q
      rw [hsess]

theorem canRejoin_intro (sm : SMState) (pid : String) (now : Nat) (session : SessionData)
    (roomId : String) (gs0 : GameState)
    (h1 : getSession sm pid = some session)
    (h2 : mapGet sm.playerSessions pid = some roomId)
    (h3 : smGetGameState sm roomId = some gs0)
    (h4 : now - session.lastSeen < SESSION_TIMEOUT)
    (h5 : gs0.currentPhase ≠ .finished) :
    canRejoinGame sm pid now = true := by
  unfold canRejoinGame
  rw [h1]
  show (match mapGet sm.playerSessions pid with
        | none => false
        | some roomId =>
          match smGetGameState sm roomId with
          | none => false
          | some gs =>
            decide (now - session.lastSeen < SESSION_TIMEOUT)
              && !(gs.currentPhase == Phase.finished)) = true
  rw [h2]
  show (match smGetGameState sm roomId with
        | none => false
        | some gs =>
          decide (now - session.lastSeen < SESSION_TIMEOUT)
            && !(gs.currentPhase == Phase.finished)) = true
  rw [h3]
  show (decide (now - session.lastSeen < SESSION_TIMEOUT)
      && !(gs0.currentPhase == Phase.finished)) = true
  simp [h4, h5]

theorem canRejoin_gs (sm : SMState) (pid : String) (now : Nat) (session : SessionData)
    (roomId : String)
    (h1 : getSession sm pid = some session)
    (h2 : mapGet sm.playerSessions pid = some roomId)
    (hcr : canRejoinGame sm pid now = true) :
    ∃ gs0, smGetGameState sm roomId = some gs0 ∧ gs0.currentPhase ≠ .finished := by
  unfold canRejoinGame at hcr
  rw [h1] at hcr
  have hcr2 : (match mapGet sm.playerSessions pid with
      | none => false
      | some roomId =>
        match smGetGameState sm roomId with
        | none => false
        | some gs =>
          decide (now - session.lastSeen < SESSION_TIMEOUT)
            && !(gs.currentPhase == Phase.finished)) = true := hcr
  rw [h2] at hcr2
  have hcr3 : (match smGetGameState sm roomId with
      | none => false
      | some gs =>
        decide (now - session.lastSeen < SESSION_TIMEOUT)
          && !(gs.currentPhase == Phase.finished)) = true := hcr2
  cases hgs : smGetGameState sm roomId with
  | none => rw [hgs] at hcr3; cases hcr3
  | some gs0 =>
    rw [hgs] at hcr3
    have hcr4 : (decide (now - session.lastSeen < SESSION_TIMEOUT)
        && !(gs0.currentPhase == Phase.finished)) = true := hcr3
    refine ⟨gs0, rfl, ?_⟩
    simp only [Bool.and_eq_true, Bool.not_eq_true', beq_eq_false_iff_ne] at hcr4
    exact hcr4.2

theorem tryRejoin_eq_some (sys : Sys) (name pid : String) (now : Nat) (session : SessionData)
    (hcr : canRejoinGame sys.sm pid now = true)
    (hsess : getSession sys.sm pid = some session)
    (hname : (jsToLower session.playerName == jsToLower name) = true) :
    tryRejoin sys name (some pid) now = some (rejoinResult sys pid session now) := by
  unfold tryRejoin
  show (if canRejoinGame sys.sm pid now = true then
        match getSession sys.sm pid with
        | none => none
        | some session =>
          if (jsToLower session.playerName == jsToLower name) = true
          then some (rejoinResult sys pid session now)
          else none
      else none) = _
  rw [if_pos hcr, hsess]
  show (if (jsToLower session.playerName == jsToLower name) = true
      then some (rejoinResult sys pid session now) else none) = _
  rw [if_pos hname]

theorem addPlayer_rejoin_eq (sys : Sys) (name : String) (b : Bool) (pid : String)
    (now : Nat) (f : String) (r : Player × Sys)
    (hlobby : sys.gm.gameState.currentPhase = .lobby)
    (h : tryRejoin sys name (some pid) now = some r) :
    addPlayer sys name b (some pid) now f = (some r.1, r.2) := by
  unfold addPlayer
  rw [if_neg (by simp [hlobby]), h]

theorem rejoinGS_phase (gs : GameState) (session : SessionData) (pid : String) (now : Nat) :
    (rejoinGameState gs session pid now).currentPhase = gs.currentPhase := by
  unfold rejoinGameState
  split_ifs <;> rfl

theorem rejoinGS_count (gs : GameState) (session : SessionData) (pid : String) (now : Nat)
    (hreg : session.isAdmin = false)
    (hcount : (gs.players.filter (fun p => p.id == pid)).length ≤ 1) :
    ((rejoinGameState gs session pid now).players.filter (fun p => p.id == pid)).length
      = 1 := by
  unfold rejoinGameState
  rw [hreg]
  simp only [Bool.false_eq_true, if_false]
  cases hany : gs.players.any (fun p => p.id == pid) with
  | true =>
    simp only [if_true]
    obtain ⟨p, hp, hpid⟩ := List.any_eq_true.mp hany
    have hmem : p ∈ gs.players.filter (fun p => p.id == pid) :=
      List.mem_filter.mpr ⟨hp, hpid⟩
    have hlen : 0 < (gs.players.filter (fun p => p.id == pid)).length :=
      List.length_pos.mpr (fun hnil => by rw [hnil] at hmem; cases hmem)
    omega
  | false =>
    simp only [Bool.false_eq_true, if_false]
    rw [List.filter_append]
    have hz : gs.players.filter (fun p => p.id == pid) = [] :=
      List.filter_eq_nil_iff.mpr (List.any_eq_false.mp hany)
    rw [hz]
    simp [rejoinedPlayer, List.filter]

theorem rejoinGS_any (gs : GameState) (session : SessionData) (pid : String) (now : Nat)
    (hreg : session.isAdmin = false)
    (hcount : (gs.players.filter (fun p => p.id == pid)).length ≤ 1) :
    (rejoinGameState gs session pid now).players.any (fun p => p.id == pid) = true := by
  have h1 := rejoinGS_count gs session pid now hreg hcount
  by_contra hc
  have hfalse : (rejoinGameState gs session pid now).players.any (fun p => p.id == pid)
      = false := by
    cases h : (rejoinGameState gs session pid now).players.any (fun p => p.id == pid) with
    | true => exact absurd h hc
    | false => rfl
  have hz : (rejoinGameState gs session pid now).players.filter (fun p => p.id == pid) = [] :=
    List.filter_eq_nil_iff.mpr (List.any_eq_false.mp hfalse)
  rw [hz] at h1
  cases h1

/-! ### C8 -/

/-- C8: `join` is idempotent for a valid prior identity with a matching name:
two lobby calls with the same identity token and name (the second within
the session timeout) both restore the same player id, and afterwards the
roster holds exactly one entry for that id. -/
theorem addPlayer_rejoin_idempotent (sys : Sys) (name : String) (b1 b2 : Bool)
    (pid : String) (now now2 : Nat) (f1 f2 : String) (session : SessionData)
    (hlobby : sys.gm.gameState.currentPhase = .lobby)
    (hcr : canRejoinGame sys.sm pid now = true)
    (hsess : getSession sys.sm pid = some session)
    (hname : (jsToLower session.playerName == jsToLower name) = true)
    (hreg : session.isAdmin = false)
    (ht2 : now2 - now < SESSION_TIMEOUT)
    (hcount : (sys.gm.gameState.players.filter (fun p => p.id == pid)).length ≤ 1) :
    ∃ p1 p2 sys1 sys2,
      addPlayer sys name b1 (some pid) now f1 = (some p1, sys1) ∧
      addPlayer sys1 name b2 (some pid) now2 f2 = (some p2, sys2) ∧
      p1.id = pid ∧ p2.id = pid ∧
      (sys2.gm.gameState.players.filter (fun p => p.id == pid)).length = 1 := by
  have hrj1 := tryRejoin_eq_some sys name pid now session hcr hsess hname
  have h1 := addPlayer_rejoin_eq sys name b1 pid now f1 _ hlobby hrj1
  obtain ⟨roomId, room, hps, hr, hs⟩ := getSession_elim sys.sm pid session hsess
  have hupd := updateSessionActivity_eq sys.sm pid now roomId room session hps hr hs
  have hB : getSession (rejoinResult sys pid session now).2.sm pid
      = some { session with lastSeen := now } := by
    show getSession (saveGameState (updateSessionActivity sys.sm pid now)
        (rejoinGameState sys.gm.gameState session pid now) MAIN_ROOM now) pid = _
    rw [hupd]
    rw [getSession_stable _ _ (saveGameState_ps _ _ _ _) (saveGameState_sessions _ _ _ _)]
    rw [getSession_eq]
    show (mapGet sys.sm.playerSessions pid).bind _ = _
    rw [hps]
    show (mapGet (mapSet sys.sm.rooms roomId (touchedRoom room pid session now)) roomId).bind _
        = _
    rw [mapGet_set_self]
    show mapGet (mapSet room.sessions pid { session with lastSeen := now }) pid = _
    exact mapGet_set_self _ _ _
  have hC : mapGet (rejoinResult sys pid session now).2.sm.playerSessions pid = some roomId := by
    show mapGet (saveGameState (updateSessionActivity sys.sm pid now)
        (rejoinGameState sys.gm.gameState session pid now) MAIN_ROOM now).playerSessions pid = _
    rw [hupd, saveGameState_ps]
    exact hps
  have hD : ∃ gsX, smGetGameState (rejoinResult sys pid session now).2.sm roomId = some gsX
      ∧ gsX.currentPhase ≠ .finished := by
    by_cases hmain : roomId = MAIN_ROOM
    · subst hmain
      refine ⟨rejoinGameState sys.gm.gameState session pid now, ?_, ?_⟩
      · show smGetGameState (saveGameState (updateSessionActivity sys.sm pid now)
            (rejoinGameState sys.gm.gameState session pid now) MAIN_ROOM now) MAIN_ROOM = _
        rw [smGetGameState_eq, hupd,
          saveGameState_room_self _ _ _ _ (touchedRoom room pid session now)
            (mapGet_set_self _ _ _)]
        rfl
      · rw [rejoinGS_phase, hlobby]
        decide
    · obtain ⟨gs0, hgs0, hfin⟩ := canRejoin_gs sys.sm pid now session roomId hsess hps hcr
      have hroomgs : room.gameState = some gs0 := by
        rw [smGetGameState_eq, hr] at hgs0
        exact hgs0
      refine ⟨gs0, ?_, hfin⟩
      show smGetGameState (saveGameState (updateSessionActivity sys.sm pid now)
          (rejoinGameState sys.gm.gameState session pid now) MAIN_ROOM now) roomId = _
      rw [smGetGameState_eq, hupd, saveGameState_room_other _ _ _ _ _ hmain]
      show (mapGet (mapSet sys.sm.rooms roomId (touchedRoom room pid session now)) roomId).bind _
          = _
      rw [mapGet_set_self]
      show (touchedRoom room pid session now).gameState = some gs0
      exact hroomgs
  have hA : (rejoinResult sys pid session now).2.gm.gameState.currentPhase = .lobby := by
    show (rejoinGameState sys.gm.gameState session pid now).currentPhase = _
    rw [rejoinGS_phase, hlobby]
  obtain ⟨gsX, hgsX, hfinX⟩ := hD
  have hcr2 : canRejoinGame (rejoinResult sys pid session now).2.sm pid now2 = true :=
    canRejoin_intro _ pid now2 { session with lastSeen := now } roomId gsX hB hC hgsX ht2 hfinX
  have hname2 : (jsToLower ({ session with lastSeen := now } : SessionData).playerName
      == jsToLower name) = true := hname
  have hrj2 := tryRejoin_eq_some (rejoinResult sys pid session now).2 name pid now2
      { session with lastSeen := now } hcr2 hB hname2
  have h2 := addPlayer_rejoin_eq (rejoinResult sys pid session now).2 name b2 pid now2 f2 _
      hA hrj2
  have hcount1 : ((rejoinGameState sys.gm.gameState session pid now).players.filter
      (fun p => p.id == pid)).length = 1 :=
    rejoinGS_count _ session pid now hreg hcount
  have hcount2 : ((rejoinGameState (rejoinGameState sys.gm.gameState session pid now)
      { session with lastSeen := now } pid now2).players.filter
      (fun p => p.id == pid)).length = 1 :=
    rejoinGS_count _ _ pid now2 hreg (by omega)
  refine ⟨(rejoinResult sys pid session now).1,
    (rejoinResult (rejoinResult sys pid session now).2 pid
      { session with lastSeen := now } now2).1,
    (rejoinResult sys pid session now).2,
    (rejoinResult (rejoinResult sys pid session now).2 pid
      { session with lastSeen := now } now2).2,
    h1, h2, rfl, rfl, ?_⟩
  show ((rejoinGameState (rejoinGameState sys.gm.gameState session pid now)
      { session with lastSeen := now } pid now2).players.filter
      (fun p => p.id == pid)).length = 1
  exact hcount2

def C8session : SessionData :=
  { playerId := "p1", playerName := "Alice", isAdmin := false, joinedAt := 0, lastSeen := 0,
    connectionHistory := [⟨0, none⟩], totalConnections := 1, version := 1, checksum := "" }

def C8room : RoomData :=
  { id := "main", createdAt := 0, lastActivity := 0, sessions := [("p1", C8session)],
    gameState := some baseGameState, adminSession := none, backup := none, version := 1,
    integrity := ⟨"", 0⟩ }

def C8sys : Sys :=
  { gm := { gameState := baseGameState, submissions := fun _ => [], votes := [] },
    sm := { rooms := [("main", C8room)], playerSessions := [("p1", "main")] } }

/-- C8 witness: a stored prior identity for `"p1"` named Alice, rejoined
twice in the lobby. -/
theorem addPlayer_rejoin_idempotent_witness :
    ∃ p1 p2 sys1 sys2,
      addPlayer C8sys "Alice" false (some "p1") 0 "f1" = (some p1, sys1) ∧
      addPlayer sys1 "Alice" false (some "p1") 10 "f2" = (some p2, sys2) ∧
      p1.id = "p1" ∧ p2.id = "p1" ∧
      (sys2.gm.gameState.players.filter (fun p => p.id == "p1")).length = 1 :=
  addPlayer_rejoin_idempotent C8sys "Alice" false false "p1" 0 10 "f1" "f2" C8session
    (by decide) (by decide) (by decide) (by decide) (by decide) (by decide) (by decide)

end DitDetect
